import Mathlib

/-!
zathura: `utils.c` and `annotations.c`.

A shallow embedding of the helper functions of `zathura/utils.c` and of the
annotation accessors of `annotations.c`, with the properties of their
natural-language specification stated and proved over the embedding.

Conventions of the embedding.

* A C string (`const char*`) is the list of its characters before the
  terminating NUL; a pointer that may be `NULL` is an `Option`.
* `unsigned int` is a `Nat` below `2 ^ 32`, `int` an `Int` in
  `[-2 ^ 31, 2 ^ 31)`; conversions are written out.
* `double` is modelled by `ℚ` (exact arithmetic): rounding and NaN are
  outside the model.
* Behaviour that the C standard leaves undefined is an explicit `Fault`.
-/

namespace Zathura

/-! ## Machine integers -/

/-- Largest `int` (`INT_MAX`). -/
def INT_MAX : Int := 2147483647

/-- Smallest `int` (`INT_MIN`). -/
def INT_MIN : Int := -2147483648

/-- Largest `unsigned int` (`UINT_MAX`). -/
def UINT_MAX : Nat := 4294967295

/-- Conversion of an integer value to `unsigned int` (reduction modulo `2 ^ 32`). -/
def to_unsigned_int (v : Int) : Nat := (v % 4294967296).toNat

/-- Conversion of an `unsigned int` value to `int` / `gint` (two's complement). -/
def to_int (v : Nat) : Int :=
  if v % 4294967296 < 2147483648 then ((v % 4294967296 : Nat) : Int)
  else ((v % 4294967296 : Nat) : Int) - 4294967296

/-- Undefined behaviour that the embedding makes explicit. -/
inductive Fault where
  /-- an array is read outside its bounds -/
  | out_of_bounds
  /-- `atoi` is applied to a numeral whose value is not representable in `int` -/
  | atoi_range
  /-- a `NULL` pointer is dereferenced -/
  | null_dereference
  deriving DecidableEq, Repr

deriving instance DecidableEq for Except

/-! ## C library and glib functions used by `find_first_page_column` -/

/-- The `isspace` of the C locale. -/
def isspace (c : Char) : Bool :=
  c.toNat = 32 || (9 ≤ c.toNat && c.toNat ≤ 13)

/-- The `isdigit` of the C library. -/
def isdigit (c : Char) : Bool :=
  48 ≤ c.toNat && c.toNat ≤ 57

/-- The digit loop of `atoi`: accumulates the decimal digits at the start of
the string and stops at the first character that is not a digit. -/
def atoi_digits : Nat → List Char → Nat
  | acc, [] => acc
  | acc, c :: cs => if isdigit c then atoi_digits (acc * 10 + (c.toNat - 48)) cs else acc

/-- The mathematical value `atoi` converts: leading white space is skipped, an
optional sign is read, then the digits that follow. -/
def atoi_value (nptr : List Char) : Int :=
  match nptr.dropWhile isspace with
  | '-' :: cs => - (atoi_digits 0 cs : Int)
  | '+' :: cs => (atoi_digits 0 cs : Int)
  | cs => (atoi_digits 0 cs : Int)

/-- The `atoi` of the C library. The C standard leaves the behaviour undefined
when the value is not representable in `int`. -/
def atoi (nptr : List Char) : Except Fault Int :=
  let v := atoi_value nptr
  if INT_MIN ≤ v ∧ v ≤ INT_MAX then .ok v else .error Fault.atoi_range

/-- The `strstr (remainder, delimiter)` of `g_strsplit` for a delimiter of one
character: `none` when the delimiter does not occur, otherwise the text before
the first occurrence and the text after it. -/
def strstr_split (delimiter : Char) : List Char → Option (List Char × List Char)
  | [] => none
  | c :: cs =>
    if c = delimiter then some ([], cs)
    else match strstr_split delimiter cs with
      | none => none
      | some (token, rest) => some (c :: token, rest)

/-- The loop `while (--max_tokens && s)` of `g_strsplit`: `max_tokens` is the
value of the counter before the decrement. Returns the tokens added by the loop
and the remainder. -/
def g_strsplit_loop (delimiter : Char) : Nat → List Char → List (List Char) × List Char
  | 0, remainder => ([], remainder)
  | max_tokens + 1, remainder =>
    if max_tokens = 0 then ([], remainder)
    else match strstr_split delimiter remainder with
      | none => ([], remainder)
      | some (token, rest) =>
        let r := g_strsplit_loop delimiter max_tokens rest
        (token :: r.1, r.2)

/-- Glib's `g_strsplit (string, delimiter, max_tokens)` for a delimiter of one
character, after its documentation: the string is split into at most
`max_tokens` pieces, the remainder of the string being the last piece; when
`max_tokens` is less than 1 the string is split completely; splitting the
empty string gives the empty vector. For the complete split the token counter
is the length of the string plus one, which no split reaches. -/
def g_strsplit (string : List Char) (delimiter : Char) (max_tokens : Int) : List (List Char) :=
  let max_tokens : Nat := if max_tokens < 1 then string.length + 1 else max_tokens.toNat
  let r := g_strsplit_loop delimiter max_tokens string
  if string ≠ [] then r.1 ++ [r.2] else r.1

/-- Glib's `g_strv_length`. -/
def g_strv_length (str_array : List (List Char)) : Nat := str_array.length

/-- Read of `settings[index]`; reading outside the array is a fault. -/
def strv_get (settings : List (List Char)) (index : Nat) : Except Fault (List Char) :=
  match settings.get? index with
  | some s => .ok s
  | none => .error Fault.out_of_bounds

/-! ## `find_first_page_column` (utils.c) -/

/-- The `else if` branch of `find_first_page_column`: the last field of the
split when it is not empty, the default otherwise. -/
def find_first_page_column_last (settings : List (List Char)) (first_page_column : Nat) :
    Except Fault Nat :=
  let settings_size := g_strv_length settings
  match strv_get settings (settings_size - 1) with
  | .error f => .error f
  | .ok last =>
    if last ≠ [] then (atoi last).map to_unsigned_int
    else .ok first_page_column

/-- `find_first_page_column (first_page_column_list, pages_per_row)` of
`utils.c`. The three `g_return_val_if_fail` checks return the default; the list
is split on `:` with limit `pages_per_row + 1` (an `unsigned int` sum passed as
`gint`); the `&&` of the first condition evaluates its right operand only when
the left one holds. -/
def find_first_page_column (first_page_column_list : Option (List Char))
    (pages_per_row : Nat) : Except Fault Nat :=
  let first_page_column : Nat := 1
  match first_page_column_list with
  | none => .ok first_page_column
  | some list =>
    if list = [] then .ok first_page_column
    else if ¬ (pages_per_row > 0) then .ok first_page_column
    else
      let settings := g_strsplit list ':' (to_int ((pages_per_row + 1) % 4294967296))
      let settings_size := g_strv_length settings
      let index := pages_per_row - 1
      if index < settings_size then
        match strv_get settings index with
        | .error f => .error f
        | .ok s =>
          if s ≠ [] then (atoi s).map to_unsigned_int
          else find_first_page_column_last settings first_page_column
      else find_first_page_column_last settings first_page_column

/-! ### Vocabulary of the specification of `find_first_page_column` -/

/-- The list string whose colon-separated entries are the given ones. -/
def colon_list : List (List Char) → List Char
  | [] => []
  | [e] => e
  | e :: e' :: es => e ++ ':' :: colon_list (e' :: es)

/-- The colon-separated entries of a list string. -/
def colon_entries : List Char → List (List Char)
  | [] => [[]]
  | c :: cs =>
    if c = ':' then [] :: colon_entries cs
    else match colon_entries cs with
      | [] => [[c]]
      | e :: es => (c :: e) :: es

/-- A non-empty decimal numeral: one or more of the digits `0` to `9`. -/
def is_decimal_numeral (e : List Char) : Bool :=
  !e.isEmpty && e.all isdigit

/-- The numeric value of a decimal numeral. -/
def decimal_value (e : List Char) : Nat :=
  e.foldl (fun acc c => 10 * acc + (c.toNat - 48)) 0

/-- The last non-empty entry of a colon-separated list, if there is one. -/
def last_non_empty_entry (list : List Char) : Option (List Char) :=
  ((colon_entries list).filter (fun e => !e.isEmpty)).getLast?

/-- The fallback as the specification words it: when the entry selected by
`pages_per_row` is missing or empty, the result is the value of the last
non-empty entry, and 1 if there is none. -/
def fallback_to_last_non_empty (list : List Char) (pages_per_row : Nat) : Prop :=
  ((colon_entries list).get? (pages_per_row - 1) = none ∨
      (colon_entries list).get? (pages_per_row - 1) = some []) →
    find_first_page_column (some list) pages_per_row =
      .ok (match last_non_empty_entry list with
        | some e => decimal_value e
        | none => 1)

/-! ## Rectangles (utils.c) -/

/-- Modelled from the spec: the rectangle type `zathura_rectangle_t`, whose
declaration is in a header that is not among the sources: four coordinates
`(x1, y1, x2, y2)`, here exact. `rotate_rectangle` reads and writes the fields
`x1`, `x2`, `y1`, `y2`. -/
@[ext]
structure zathura_rectangle_t where
  /-- x coordinate of the first corner -/
  x1 : ℚ
  /-- y coordinate of the first corner -/
  y1 : ℚ
  /-- x coordinate of the second corner -/
  x2 : ℚ
  /-- y coordinate of the second corner -/
  y2 : ℚ
  deriving DecidableEq

/-- `rotate_rectangle (rectangle, degree, height, width)` of `utils.c`; the
`switch` over `degree` is the chain of its cases. -/
def rotate_rectangle (rectangle : zathura_rectangle_t) (degree : Nat) (height width : ℚ) :
    zathura_rectangle_t :=
  if degree = 90 then
    { x1 := height - rectangle.y2
      x2 := height - rectangle.y1
      y1 := rectangle.x1
      y2 := rectangle.x2 }
  else if degree = 180 then
    { x1 := width - rectangle.x2
      x2 := width - rectangle.x1
      y1 := height - rectangle.y2
      y2 := height - rectangle.y1 }
  else if degree = 270 then
    { x1 := rectangle.y1
      x2 := rectangle.y2
      y1 := width - rectangle.x2
      y2 := width - rectangle.x1 }
  else
    { x1 := rectangle.x1
      x2 := rectangle.x2
      y1 := rectangle.y1
      y2 := rectangle.y2 }

/-! ## Zoom (utils.c) -/

/-- A value of a girara setting. -/
inductive girara_setting_value_t where
  /-- an `INT` setting -/
  | int (value : Int)
  /-- a `STRING` setting; the string may be `NULL` -/
  | string (value : Option (List Char))
  deriving DecidableEq

/-- The part of a girara session the functions of `utils.c` read: its settings,
by name. -/
structure girara_session_t where
  /-- the value of the setting of that name, if the session has one -/
  settings : String → Option girara_setting_value_t

/-- `girara_setting_get (session, name, &dest)` for an `int` destination: the
destination is written only when the session has the setting. -/
def girara_setting_get_int (session : girara_session_t) (name : String) (dest : Int) : Int :=
  match session.settings name with
  | some (girara_setting_value_t.int value) => value
  | _ => dest

/-- `zathura_correct_zoom_value (session, zoom)` of `utils.c`. -/
def zathura_correct_zoom_value (session : Option girara_session_t) (zoom : ℚ) : ℚ :=
  match session with
  | none => zoom
  | some session =>
    let zoom_min_int : Int := 10
    let zoom_max_int : Int := 1000
    let zoom_min_int := girara_setting_get_int session "zoom-min" zoom_min_int
    let zoom_max_int := girara_setting_get_int session "zoom-max" zoom_max_int
    let zoom_min : ℚ := zoom_min_int * 0.01
    let zoom_max : ℚ := zoom_max_int * 0.01
    if zoom < zoom_min then zoom_min
    else if zoom > zoom_max then zoom_max
    else zoom

/-! ### Vocabulary of the specification of the zoom clamp -/

/-- The lower bound of the specification: the `zoom-min` setting of the session
(10 when the session has none) divided by 100. -/
def zoom_min_of (session : girara_session_t) : ℚ :=
  (girara_setting_get_int session "zoom-min" 10 : ℚ) / 100

/-- The upper bound of the specification: the `zoom-max` setting of the session
(1000 when the session has none) divided by 100. -/
def zoom_max_of (session : girara_session_t) : ℚ :=
  (girara_setting_get_int session "zoom-max" 1000 : ℚ) / 100

/-- A session whose `zoom-min` and `zoom-max` settings have the given values. -/
def session_with_zoom_limits (zoom_min_int zoom_max_int : Int) : girara_session_t :=
  { settings := fun name =>
      if name = "zoom-min" then some (girara_setting_value_t.int zoom_min_int)
      else if name = "zoom-max" then some (girara_setting_value_t.int zoom_max_int)
      else none }

/-- A session without settings. -/
def session_without_settings : girara_session_t :=
  { settings := fun _ => none }

/-! ## Annotations (annotations.c) -/

/-- A pointer: `none` is `NULL`, otherwise the address of the object. -/
abbrev Ptr := Option Nat

/-- The character buffers in memory: the string held by the buffer at each
address. -/
abbrev Memory := Nat → List Char

/-- The `strlen` of the C library. -/
def strlen (string : List Char) : Nat := string.length

/-- The string left in the destination by `memcpy (dest, src, n)` when the
source holds `string` and `n` does not exceed its size with the terminator:
the `n` bytes copied are the characters of the string, the last one the
terminator. -/
def memcpy_string (string : List Char) (n : Nat) : List Char := string.take (n - 1)

/-- The static `__strdup (string)` of `annotations.c`. `malloc` gives, for a
size, the block the allocator returns (`none` for `NULL`). -/
def __strdup (malloc : Nat → Ptr) (mem : Memory) (string : Ptr) : Ptr × Memory :=
  match string with
  | none => (none, mem)
  | some src =>
    let length := strlen (mem src) + 1
    match malloc (1 * length) with
    | none => (none, mem)
    | some new_string =>
      (some new_string, Function.update mem new_string (memcpy_string (mem src) length))

/-- The `struct zathura_annotation_s` of `annotations.c`. The enumerations
`zathura_annotation_type_t` and `zathura_annotation_flag_t` are declared in a
header that is not among the sources; their values are integers. -/
structure zathura_annotation_s where
  /-- type of the annotation (`zathura_annotation_type_t`, an enumeration) -/
  type : Int
  /-- flags of the annotation (`zathura_annotation_flag_t`, an enumeration) -/
  flags : Int
  /-- name of the annotation -/
  name : Ptr
  /-- content of the annotation -/
  content : Ptr
  /-- modification date (`time_t`) -/
  modification_date : Int
  /-- page index (`unsigned int`) -/
  page_index : Nat
  /-- custom data (`void*`) -/
  data : Ptr
  deriving DecidableEq

/-- The block `calloc (1, sizeof (zathura_annotation_t))` returns: `NULL`, or a
record whose bytes are all zero. -/
def calloc_annotation (succeeds : Bool) : Option zathura_annotation_s :=
  if succeeds then
    some { type := 0, flags := 0, name := none, content := none,
           modification_date := 0, page_index := 0, data := none }
  else none

/-- `zathura_annotation_new (type)`: the result of `calloc` is written through
without a check. -/
def zathura_annotation_new (calloc_succeeds : Bool) (type : Int) :
    Except Fault zathura_annotation_s :=
  match calloc_annotation calloc_succeeds with
  | none => .error Fault.null_dereference
  | some annotation => .ok { annotation with type := type }

/-- `zathura_annotation_get_data (annotation)`. -/
def zathura_annotation_get_data ( annotation : Option zathura_annotation_s) : Ptr :=
  match annotation with
  | none => none
  | some annotation => annotation.data

/-- `zathura_annotation_set_data (annotation, data)`. -/
def zathura_annotation_set_data ( annotation : Option zathura_annotation_s) (data : Ptr) :
    Option zathura_annotation_s :=
  match annotation with
  | none => none
  | some annotation => some { annotation with data := data }

/-- `zathura_annotation_get_type (annotation)`; the enumerator
`ZATHURA_ANNOTATION_UNKNOWN` of `annotations.h` is a parameter. -/
def zathura_annotation_get_type (ZATHURA_ANNOTATION_UNKNOWN : Int)
    ( annotation : Option zathura_annotation_s) : Int :=
  match annotation with
  | none => ZATHURA_ANNOTATION_UNKNOWN
  | some annotation => annotation.type

/-- `zathura_annotation_get_flags (annotation)`; the enumerator
`ZATHURA_ANNOTATION_FLAG_UNKNOWN` of `annotations.h` is a parameter. -/
def zathura_annotation_get_flags (ZATHURA_ANNOTATION_FLAG_UNKNOWN : Int)
    ( annotation : Option zathura_annotation_s) : Int :=
  match annotation with
  | none => ZATHURA_ANNOTATION_FLAG_UNKNOWN
  | some annotation => annotation.flags

/-- `zathura_annotation_set_flags (annotation, flags)`. -/
def zathura_annotation_set_flags ( annotation : Option zathura_annotation_s) (flags : Int) :
    Option zathura_annotation_s :=
  match annotation with
  | none => none
  | some annotation => some { annotation with flags := flags }

/-- `zathura_annotation_get_content (annotation)`. -/
def zathura_annotation_get_content ( annotation : Option zathura_annotation_s) : Ptr :=
  match annotation with
  | none => none
  | some annotation => annotation.content

/-- `zathura_annotation_set_content (annotation, content)`: returns the
annotation and the memory after the call. -/
def zathura_annotation_set_content (malloc : Nat → Ptr) (mem : Memory)
    ( annotation : Option zathura_annotation_s) (content : Ptr) :
    Option zathura_annotation_s × Memory :=
  match annotation with
  | none => (none, mem)
  | some annotation =>
    if content ≠ none then
      let r := __strdup malloc mem content
      (some { annotation with content := r.1 }, r.2)
    else
      (some { annotation with content := none }, mem)

/-- `zathura_annotation_get_name (annotation)`. -/
def zathura_annotation_get_name ( annotation : Option zathura_annotation_s) : Ptr :=
  match annotation with
  | none => none
  | some annotation => annotation.name

/-- `zathura_annotation_set_name (annotation, name)`: returns the annotation and
the memory after the call. -/
def zathura_annotation_set_name (malloc : Nat → Ptr) (mem : Memory)
    ( annotation : Option zathura_annotation_s) (name : Ptr) :
    Option zathura_annotation_s × Memory :=
  match annotation with
  | none => (none, mem)
  | some annotation =>
    if name ≠ none then
      let r := __strdup malloc mem name
      (some { annotation with name := r.1 }, r.2)
    else
      (some { annotation with name := none }, mem)

/-- `zathura_annotation_get_modified (annotation)`. -/
def zathura_annotation_get_modified ( annotation : Option zathura_annotation_s) : Int :=
  match annotation with
  | none => -1
  | some annotation => annotation.modification_date

/-- `zathura_annotation_set_modified (annotation, modification_date)`. -/
def zathura_annotation_set_modified ( annotation : Option zathura_annotation_s)
    (modification_date : Int) : Option zathura_annotation_s :=
  match annotation with
  | none => none
  | some annotation => some { annotation with modification_date := modification_date }

/-- `zathura_annotation_get_page_index (annotation)`. -/
def zathura_annotation_get_page_index ( annotation : Option zathura_annotation_s) : Nat :=
  match annotation with
  | none => 0
  | some annotation => annotation.page_index

/-- `zathura_annotation_set_page_index (annotation, page_index)`. -/
def zathura_annotation_set_page_index ( annotation : Option zathura_annotation_s)
    (page_index : Nat) : Option zathura_annotation_s :=
  match annotation with
  | none => none
  | some annotation => some { annotation with page_index := page_index }

/-! ### Vocabulary of the specification of the string setters -/

/-- What the specification says of a string getter after the setter was given
the string `s`: the getter returns a buffer, and the buffer holds `s`. -/
def reads_back (mem : Memory) (result : Ptr) (s : List Char) : Prop :=
  ∃ p, result = some p ∧ mem p = s

/-- An allocator that is out of memory: `malloc` returns `NULL` for every size. -/
def malloc_fails : Nat → Ptr := fun _ => none

/-- An allocator that returns the block at the given address for every size. -/
def malloc_returns (block : Nat) : Nat → Ptr := fun _ => some block

/-- A memory in which every buffer holds the string `abc`. -/
def memory_abc : Memory := fun _ => ['a', 'b', 'c']

/-- An annotation as `calloc` leaves it: every field zero. -/
def annotation_zero : zathura_annotation_s :=
  { type := 0, flags := 0, name := none, content := none,
    modification_date := 0, page_index := 0, data := none }

/-- A block handed to `free`. -/
inductive freed_block_t where
  /-- a character buffer, by its address -/
  | buffer (address : Nat)
  /-- the annotation record itself -/
  | record
  deriving DecidableEq

/-- `zathura_annotation_free (annotation)`: the blocks it hands to `free`, in
order; nothing for a `NULL` annotation. -/
def zathura_annotation_free ( annotation : Option zathura_annotation_s) : List freed_block_t :=
  match annotation with
  | none => []
  | some annotation =>
    (match annotation.name with
      | some address => [freed_block_t.buffer address]
      | none => []) ++
    (match annotation.content with
      | some address => [freed_block_t.buffer address]
      | none => []) ++
    [freed_block_t.record]

/-- The fields of an annotation, one for each getter. -/
inductive annotation_field_t where
  | type | flags | name | content | modification_date | page_index | data
  deriving DecidableEq

/-- What the specification says of a setter that changes only the field
`field`: every getter other than the one of that field returns after the call
what it returned before, and the type getter does so in any case. -/
def getters_agree_except (field : annotation_field_t) (unknown_type unknown_flag : Int)
    (before after : Option zathura_annotation_s) : Prop :=
  zathura_annotation_get_type unknown_type after =
    zathura_annotation_get_type unknown_type before ∧
  (field ≠ annotation_field_t.flags →
    zathura_annotation_get_flags unknown_flag after =
      zathura_annotation_get_flags unknown_flag before) ∧
  (field ≠ annotation_field_t.name →
    zathura_annotation_get_name after = zathura_annotation_get_name before) ∧
  (field ≠ annotation_field_t.content →
    zathura_annotation_get_content after = zathura_annotation_get_content before) ∧
  (field ≠ annotation_field_t.modification_date →
    zathura_annotation_get_modified after = zathura_annotation_get_modified before) ∧
  (field ≠ annotation_field_t.page_index →
    zathura_annotation_get_page_index after = zathura_annotation_get_page_index before) ∧
  (field ≠ annotation_field_t.data →
    zathura_annotation_get_data after = zathura_annotation_get_data before)

/-! ## The application object (utils.c) -/

/-- Modelled from the spec: the application object `zathura_t`, whose
declaration is in a header that is not among the sources; the fields are those
the functions of `utils.c` treated here read: the context of the content-type
detector, the plugin manager (`plugins.manager`) and the girara session
(`ui.session`). -/
structure zathura_t (Context Manager : Type) where
  /-- `content_type_context` -/
  content_type_context : Context
  /-- `plugins.manager`, which may be `NULL` -/
  plugins_manager : Option Manager
  /-- `ui.session`, which may be `NULL` -/
  ui_session : Option girara_session_t

/-- `file_valid_extension (zathura, path)` of `utils.c`. The content-type
detector `zathura_content_type_guess` and the registry lookup
`zathura_plugin_manager_get_plugin`, which are not among the sources, are
parameters; `none` is their `NULL` result. -/
def file_valid_extension {Context Manager Plugin : Type}
    (zathura_content_type_guess : Context → List Char → Option (List Char))
    (zathura_plugin_manager_get_plugin : Manager → List Char → Option Plugin)
    (zathura : Option (zathura_t Context Manager)) (path : Option (List Char)) : Bool :=
  match zathura, path with
  | none, _ => false
  | some _, none => false
  | some zathura, some path =>
    match zathura.plugins_manager with
    | none => false
    | some manager =>
      match zathura_content_type_guess zathura.content_type_context path with
      | none => false
      | some content_type =>
        match zathura_plugin_manager_get_plugin manager content_type with
        | none => false
        | some _ => true

/-! ## `recalc_rectangle` (utils.c) -/

/-- Modelled from the spec: the document object, whose declaration and getters
are not among the sources, by what `zathura_document_get_rotation` and
`zathura_document_get_scale` return for it. -/
structure zathura_document_t where
  /-- rotation in degrees (`unsigned int`) -/
  rotation : Nat
  /-- scale factor -/
  scale : ℚ

/-- Modelled from the spec: the page object, whose declaration and getters are
not among the sources, by what `zathura_page_get_document`,
`zathura_page_get_height` and `zathura_page_get_width` return for it. -/
structure zathura_page_t where
  /-- the owning document, which may be `NULL` -/
  document : Option zathura_document_t
  /-- page height -/
  height : ℚ
  /-- page width -/
  width : ℚ

/-- `recalc_rectangle (page, rectangle)` of `utils.c`. -/
def recalc_rectangle (page : Option zathura_page_t) (rectangle : zathura_rectangle_t) :
    zathura_rectangle_t :=
  match page with
  | none => rectangle
  | some page =>
    match page.document with
    | none => rectangle
    | some document =>
      let page_height := page.height
      let page_width := page.width
      let scale := document.scale
      let tmp := rotate_rectangle rectangle document.rotation page_height page_width
      { x1 := tmp.x1 * scale
        x2 := tmp.x2 * scale
        y1 := tmp.y1 * scale
        y2 := tmp.y2 * scale }

/-- What the specification asks of a rectangle on a page of the given width
and height: `0 ≤ x1 ≤ x2 ≤ width` and `0 ≤ y1 ≤ y2 ≤ height`. -/
def rectangle_within (rectangle : zathura_rectangle_t) (width height : ℚ) : Prop :=
  0 ≤ rectangle.x1 ∧ rectangle.x1 ≤ rectangle.x2 ∧ rectangle.x2 ≤ width ∧
  0 ≤ rectangle.y1 ∧ rectangle.y1 ≤ rectangle.y2 ∧ rectangle.y2 ≤ height

/-! ## `get_selection` (utils.c) -/

/-- `girara_setting_get (session, name, &dest)` for a `char*` destination: the
destination is written, with the string of the setting or `NULL`, only when
there is a session and it has the setting. -/
def girara_setting_get_string (session : Option girara_session_t) (name : String)
    (dest : Option (List Char)) : Option (List Char) :=
  match session with
  | none => dest
  | some session =>
    match session.settings name with
    | some (girara_setting_value_t.string value) => value
    | _ => dest

/-- The selections `get_selection` can name. -/
inductive GdkAtom where
  | GDK_SELECTION_PRIMARY
  | GDK_SELECTION_CLIPBOARD
  deriving DecidableEq

/-- `get_selection (zathura)` of `utils.c`; `g_try_malloc_succeeds` tells
whether `g_try_malloc` returns a block. The result is the atom the returned
pointer points to, `none` for `NULL`. -/
def get_selection {Context Manager : Type} (g_try_malloc_succeeds : Bool)
    (zathura : Option (zathura_t Context Manager)) : Option GdkAtom :=
  match zathura with
  | none => none
  | some zathura =>
    let value : Option (List Char) := none
    let value := girara_setting_get_string zathura.ui_session "selection-clipboard" value
    match value with
    | none => none
    | some value =>
      if ¬ g_try_malloc_succeeds then none
      else if value = "primary".toList then some GdkAtom.GDK_SELECTION_PRIMARY
      else if value = "clipboard".toList then some GdkAtom.GDK_SELECTION_CLIPBOARD
      else none

/-- The selection the specification assigns to a value of the
`selection-clipboard` setting. -/
def selection_of_setting (value : Option (List Char)) : Option GdkAtom :=
  if value = some "primary".toList then some GdkAtom.GDK_SELECTION_PRIMARY
  else if value = some "clipboard".toList then some GdkAtom.GDK_SELECTION_CLIPBOARD
  else none

/-- An application object with the given session and no plugin manager. -/
def zathura_with_session (session : Option girara_session_t) : zathura_t Unit Unit :=
  { content_type_context := (), plugins_manager := none, ui_session := session }

/-- A session whose `selection-clipboard` setting has the given value. -/
def session_with_selection (value : Option (List Char)) : girara_session_t :=
  { settings := fun name =>
      if name = "selection-clipboard" then some (girara_setting_value_t.string value)
      else none }

/-! ## `document_index_build` (utils.c) -/

/-- Modelled from the spec: the target of a link, whose declaration is in a
header that is not among the sources: the raw target value, a string that may
be `NULL`, and the page number, an `unsigned int`. -/
structure zathura_link_target_t where
  /-- `value` -/
  value : Option (List Char)
  /-- `page_number` -/
  page_number : Nat
  deriving DecidableEq

/-- Modelled from the spec: a link, by what `zathura_link_get_type` and
`zathura_link_get_target`, which are not among the sources, return for it. -/
structure zathura_link_t where
  /-- the link type (`zathura_link_type_t`, an enumeration) -/
  type : Int
  /-- the link target -/
  target : zathura_link_target_t
  deriving DecidableEq

/-- Modelled from the spec: an index element, whose declaration is in a header
that is not among the sources: a title and a link. -/
structure zathura_index_element_t where
  /-- `title` -/
  title : Option (List Char)
  /-- `link` -/
  link : zathura_link_t
  deriving DecidableEq

/-- A girara tree node: its data, an index element, and its children. -/
inductive girara_tree_node_t where
  | node (data : zathura_index_element_t) (children : List girara_tree_node_t)

/-- Girara's `girara_node_get_data`. -/
def girara_node_get_data : girara_tree_node_t → zathura_index_element_t
  | girara_tree_node_t.node data _ => data

/-- Girara's `girara_node_get_children`. -/
def girara_node_get_children : girara_tree_node_t → List girara_tree_node_t
  | girara_tree_node_t.node _ children => children

/-- Girara's `girara_node_get_num_children`. -/
def girara_node_get_num_children (node : girara_tree_node_t) : Nat :=
  (girara_node_get_children node).length

/-- A row of the tree store: the row it was appended under (`none` for the top
level) and its three columns. -/
structure GtkTreeRow where
  /-- position of the parent row -/
  parent : Option Nat
  /-- column 0, the markup -/
  column0 : Option (List Char)
  /-- column 1, the description -/
  column1 : Option (List Char)
  /-- column 2, the index element -/
  column2 : Option zathura_index_element_t
  deriving DecidableEq

/-- The tree store: its rows in the order of their creation, a row being
designated (`GtkTreeIter`) by its position in that order, and the data of the
`index_element_free` callbacks registered on the store with
`g_object_weak_ref`, in the order of registration. -/
structure GtkTreeStore where
  /-- the rows -/
  rows : List GtkTreeRow
  /-- the index elements for which a cleanup is registered -/
  weak_refs : List zathura_index_element_t
  deriving DecidableEq

/-- GTK's `gtk_tree_store_append (store, &iter, parent)`: a new empty row is
added as the last child of `parent`; returns the store and the new iter. -/
def gtk_tree_store_append (store : GtkTreeStore) (parent : Option Nat) : GtkTreeStore × Nat :=
  ({ store with rows := store.rows ++
      [{ parent := parent, column0 := none, column1 := none, column2 := none }] },
    store.rows.length)

/-- Replaces the columns of the row at a position. -/
def set_columns (column0 column1 : Option (List Char))
    (column2 : Option zathura_index_element_t) : Nat → List GtkTreeRow → List GtkTreeRow
  | _, [] => []
  | 0, row :: rows =>
    { row with column0 := column0, column1 := column1, column2 := column2 } :: rows
  | iter + 1, row :: rows => row :: set_columns column0 column1 column2 iter rows

/-- GTK's `gtk_tree_store_set (store, &iter, 0, markup, 1, description, 2,
index_element, -1)`. -/
def gtk_tree_store_set (store : GtkTreeStore) (iter : Nat) (column0 column1 : Option (List Char))
    (column2 : Option zathura_index_element_t) : GtkTreeStore :=
  { store with rows := set_columns column0 column1 column2 iter store.rows }

/-- GLib's `g_object_weak_ref (G_OBJECT (model), index_element_free,
index_element)`. -/
def g_object_weak_ref (store : GtkTreeStore) (data : zathura_index_element_t) : GtkTreeStore :=
  { store with weak_refs := store.weak_refs ++ [data] }

/-- GLib's `g_strdup_printf ("Page %d", d)` for an `unsigned int` argument `d`:
the conversion `%d` reads the 32 bits of the argument as an `int` and prints
its decimal numeral, with a minus sign when it is negative. -/
def g_strdup_printf_page (d : Nat) : List Char :=
  "Page ".toList ++ (toString (to_int d)).toList

mutual
/-- `document_index_build (model, parent, tree)` of `utils.c`. The enumerator
`ZATHURA_LINK_GOTO_DEST` and GLib's `g_markup_escape_text` are parameters. -/
def document_index_build (ZATHURA_LINK_GOTO_DEST : Int)
    (g_markup_escape_text : Option (List Char) → Option (List Char))
    (model : GtkTreeStore) (parent : Option Nat) : girara_tree_node_t → GtkTreeStore
  | girara_tree_node_t.node _ list =>
    document_index_build_foreach ZATHURA_LINK_GOTO_DEST g_markup_escape_text model parent list
/-- The loop `GIRARA_LIST_FOREACH_BODY (list, girara_tree_node_t*, node, ...)` of
`document_index_build`, over the nodes of the list that remain. -/
def document_index_build_foreach (ZATHURA_LINK_GOTO_DEST : Int)
    (g_markup_escape_text : Option (List Char) → Option (List Char))
    (model : GtkTreeStore) (parent : Option Nat) : List girara_tree_node_t → GtkTreeStore
  | [] => model
  | node :: rest =>
    let index_element := girara_node_get_data node
    let type := index_element.link.type
    let target := index_element.link.target
    let description : Option (List Char) :=
      if type = ZATHURA_LINK_GOTO_DEST then
        some (g_strdup_printf_page ((target.page_number + 1) % 4294967296))
      else target.value
    let appended := gtk_tree_store_append model parent
    let tree_iter := appended.2
    let markup := g_markup_escape_text index_element.title
    let model := gtk_tree_store_set appended.1 tree_iter markup description (some index_element)
    let model := g_object_weak_ref model index_element
    let model :=
      if girara_node_get_num_children node > 0 then
        document_index_build ZATHURA_LINK_GOTO_DEST g_markup_escape_text model
          (some tree_iter) node
      else model
    document_index_build_foreach ZATHURA_LINK_GOTO_DEST g_markup_escape_text model parent rest
end

/-! ### Vocabulary of the specification of `document_index_build` -/

mutual
/-- The nodes of a subtree in depth-first pre-order, its root first, each with
the position of the row of its tree parent: the row of the root of the subtree
is at position `first` and lies under `parent`. -/
def preorder_node (parent : Option Nat) (first : Nat) :
    girara_tree_node_t → List (Option Nat × zathura_index_element_t)
  | girara_tree_node_t.node data children =>
    (parent, data) :: preorder_children (some first) (first + 1) children
/-- The nodes of the subtrees of a list of siblings, one subtree after the
other, the rows starting at position `first`. -/
def preorder_children (parent : Option Nat) (first : Nat) :
    List girara_tree_node_t → List (Option Nat × zathura_index_element_t)
  | [] => []
  | node :: rest =>
    preorder_node parent first node ++
      preorder_children parent (first + (preorder_node parent first node).length) rest
end

mutual
/-- The number of nodes of a subtree, its root included. -/
def node_count : girara_tree_node_t → Nat
  | girara_tree_node_t.node _ children => 1 + node_count_children children
/-- The number of nodes of the subtrees of a list of siblings. -/
def node_count_children : List girara_tree_node_t → Nat
  | [] => 0
  | node :: rest => node_count node + node_count_children rest
end

/-- The description the specification gives the row of an index element:
`Page n` with `n` the target page number plus one for a go-to-destination
link, the raw target value otherwise. -/
def expected_description (ZATHURA_LINK_GOTO_DEST : Int)
    (index_element : zathura_index_element_t) : Option (List Char) :=
  if index_element.link.type = ZATHURA_LINK_GOTO_DEST then
    some ("Page ".toList ++
      (toString ((index_element.link.target.page_number : Int) + 1)).toList)
  else index_element.link.target.value

/-- The row the specification gives a node: under the row of its parent, with
the escaped title, the description and the index element. -/
def expected_row (ZATHURA_LINK_GOTO_DEST : Int)
    (g_markup_escape_text : Option (List Char) → Option (List Char))
    (entry : Option Nat × zathura_index_element_t) : GtkTreeRow :=
  { parent := entry.1
    column0 := g_markup_escape_text entry.2.title
    column1 := expected_description ZATHURA_LINK_GOTO_DEST entry.2
    column2 := some entry.2 }

/-- The row `document_index_build` stores for a node: under the row of its
parent, with the escaped title, the description as the function prints it (the
sum `page_number + 1` of `unsigned int`, printed with `%d`) and the index
element. -/
def built_row (ZATHURA_LINK_GOTO_DEST : Int)
    (g_markup_escape_text : Option (List Char) → Option (List Char))
    (entry : Option Nat × zathura_index_element_t) : GtkTreeRow :=
  { parent := entry.1
    column0 := g_markup_escape_text entry.2.title
    column1 :=
      if entry.2.link.type = ZATHURA_LINK_GOTO_DEST then
        some (g_strdup_printf_page ((entry.2.link.target.page_number + 1) % 4294967296))
      else entry.2.link.target.value
    column2 := some entry.2 }

/-- The store after the rows of the given nodes are added: one row for each
node, in their order, and one cleanup for the index element of each. -/
def store_with_rows (ZATHURA_LINK_GOTO_DEST : Int)
    (g_markup_escape_text : Option (List Char) → Option (List Char))
    (model : GtkTreeStore) (entries : List (Option Nat × zathura_index_element_t)) :
    GtkTreeStore :=
  { rows := model.rows ++ entries.map (built_row ZATHURA_LINK_GOTO_DEST g_markup_escape_text)
    weak_refs := model.weak_refs ++ entries.map Prod.snd }

/-- What the specification asks of the page numbers of a list of nodes: for
every go-to-destination link the sum `page_number + 1` fits in an `int`. -/
def page_numbers_fit (ZATHURA_LINK_GOTO_DEST : Int)
    (entries : List (Option Nat × zathura_index_element_t)) : Prop :=
  ∀ entry ∈ entries, entry.2.link.type = ZATHURA_LINK_GOTO_DEST →
    (entry.2.link.target.page_number : Int) + 1 ≤ INT_MAX

/-- An index element with the given title, link type and target page number. -/
def index_element_of (title : List Char) (type : Int) (page_number : Nat) :
    zathura_index_element_t :=
  { title := some title
    link := { type := type, target := { value := some ['u', 'r', 'i'], page_number := page_number } } }

/-- An index tree with five nodes below its root; the link type 2 stands for
go-to-destination. -/
def sample_index_tree : girara_tree_node_t :=
  girara_tree_node_t.node (index_element_of ['r'] 0 0)
    [girara_tree_node_t.node (index_element_of ['a'] 2 4)
      [girara_tree_node_t.node (index_element_of ['b'] 3 0) [],
        girara_tree_node_t.node (index_element_of ['c'] 2 7)
          [girara_tree_node_t.node (index_element_of ['d'] 2 1) []]],
      girara_tree_node_t.node (index_element_of ['e'] 2 9) []]

/-- An index tree with one node below its root, a go-to-destination link (type
2) to the page number `2 ^ 31 - 1`. -/
def overflow_index_tree : girara_tree_node_t :=
  girara_tree_node_t.node (index_element_of ['r'] 0 0)
    [girara_tree_node_t.node (index_element_of ['a'] 2 2147483647) []]

/-! ## Lemmas on the split -/

theorem strstr_split_none (d : Char) (e : List Char) (h : d ∉ e) :
    strstr_split d e = none := by
  induction e with
  | nil => rfl
  | cons c cs ih =>
    have hc : c ≠ d := fun hcd => h (by simp [hcd])
    have hcs : d ∉ cs := fun hmem => h (List.mem_cons_of_mem _ hmem)
    simp [strstr_split, hc, ih hcs]

theorem strstr_split_append (d : Char) (e rest : List Char) (h : d ∉ e) :
    strstr_split d (e ++ d :: rest) = some (e, rest) := by
  induction e with
  | nil => simp [strstr_split]
  | cons c cs ih =>
    have hc : c ≠ d := fun hcd => h (by simp [hcd])
    have hcs : d ∉ cs := fun hmem => h (List.mem_cons_of_mem _ hmem)
    simp [strstr_split, hc, ih hcs]

theorem colon_list_cons_cons (e e' : List Char) (es : List (List Char)) :
    colon_list (e :: e' :: es) = e ++ ':' :: colon_list (e' :: es) := rfl

theorem g_strsplit_loop_colon_list (es : List (List Char)) (hes : es ≠ [])
    (hfree : ∀ e ∈ es, ':' ∉ e) (n : Nat) (hn : 1 ≤ n) :
    g_strsplit_loop ':' n (colon_list es) =
      (es.take (min (n - 1) (es.length - 1)),
        colon_list (es.drop (min (n - 1) (es.length - 1)))) := by
  induction es generalizing n with
  | nil => exact absurd rfl hes
  | cons e rest ih =>
    obtain ⟨m, rfl⟩ : ∃ m, n = m + 1 := ⟨n - 1, by omega⟩
    cases rest with
    | nil =>
      have he : ':' ∉ e := hfree e (by simp)
      by_cases hm : m = 0
      · simp [g_strsplit_loop, hm, colon_list]
      · simp [g_strsplit_loop, hm, colon_list, strstr_split_none _ _ he]
    | cons e' rest' =>
      have he : ':' ∉ e := hfree e (by simp)
      by_cases hm : m = 0
      · simp [g_strsplit_loop, hm]
      · have hrec := ih (by simp) (fun x hx => hfree x (List.mem_cons_of_mem _ hx)) m (by omega)
        have hmin : min m (rest'.length + 1) = min (m - 1) rest'.length + 1 := by omega
        rw [colon_list_cons_cons]
        simp only [g_strsplit_loop, hm, if_false, strstr_split_append _ _ _ he, hrec]
        simp [hmin]

theorem length_le_colon_list (es : List (List Char)) :
    es.length ≤ (colon_list es).length + 1 := by
  induction es with
  | nil => simp
  | cons e rest ih =>
    cases rest with
    | nil => simp
    | cons e' rest' =>
      rw [colon_list_cons_cons]
      simp only [List.length_cons, List.length_append] at ih ⊢
      omega

theorem colon_list_singleton (e : List Char) : colon_list [e] = e := rfl

theorem take_append_colon_list_drop_last (es : List (List Char)) (hes : es ≠ []) :
    es.take (es.length - 1) ++ [colon_list (es.drop (es.length - 1))] = es := by
  have hlast : es.drop (es.length - 1) = [es.getLast hes] := by
    have h := List.dropLast_append_getLast hes
    have hl : es.dropLast.length = es.length - 1 := List.length_dropLast es
    calc es.drop (es.length - 1)
        = (es.dropLast ++ [es.getLast hes]).drop es.dropLast.length := by rw [h, hl]
      _ = [es.getLast hes] := List.drop_left _ _
  rw [hlast, colon_list_singleton]
  conv_rhs => rw [← List.take_append_drop (es.length - 1) es, hlast]

/-- The complete split of a list string gives back its entries. -/
theorem g_strsplit_colon_list_all (es : List (List Char)) (hes : es ≠ [])
    (hfree : ∀ e ∈ es, ':' ∉ e) (hne : colon_list es ≠ []) (max_tokens : Int)
    (hmax : max_tokens < 1 ∨ (es.length : Int) ≤ max_tokens) :
    g_strsplit (colon_list es) ':' max_tokens = es := by
  have hlen := length_le_colon_list es
  have hpos : 0 < es.length := List.length_pos.mpr hes
  unfold g_strsplit
  simp only [hne, ne_eq, not_false_eq_true, if_true]
  rw [g_strsplit_loop_colon_list es hes hfree _ (by split <;> omega)]
  have hmin : min ((if max_tokens < 1 then (colon_list es).length + 1 else max_tokens.toNat) - 1)
      (es.length - 1) = es.length - 1 := by
    split <;> omega
  simp only [hmin]
  exact take_append_colon_list_drop_last es hes

/-- The split limited to fewer pieces than the list has entries: the entries
before the limit, then the remainder of the list. -/
theorem g_strsplit_colon_list_limit (es : List (List Char)) (hes : es ≠ [])
    (hfree : ∀ e ∈ es, ':' ∉ e) (hne : colon_list es ≠ []) (n : Nat)
    (h1 : 1 ≤ n) (hn : n ≤ es.length) :
    g_strsplit (colon_list es) ':' (n : Int) =
      es.take (n - 1) ++ [colon_list (es.drop (n - 1))] := by
  unfold g_strsplit
  simp only [hne, ne_eq, not_false_eq_true, if_true]
  have hlt : ¬ ((n : Int) < 1) := by omega
  simp only [hlt, if_false, Int.toNat_ofNat]
  rw [g_strsplit_loop_colon_list es hes hfree _ h1]
  have hmin : min (n - 1) (es.length - 1) = n - 1 := by omega
  simp only [hmin]

/-- The field array `find_first_page_column` works on, for a list string given
by its entries. -/
theorem g_strsplit_pages_per_row (es : List (List Char)) (hes : es ≠ [])
    (hfree : ∀ e ∈ es, ':' ∉ e) (hne : colon_list es ≠ []) (p : Nat)
    (h1 : 1 ≤ p) (hu : p ≤ UINT_MAX) :
    g_strsplit (colon_list es) ':' (to_int ((p + 1) % 4294967296)) =
      if p < es.length ∧ p + 1 < 2147483648 then es.take p ++ [colon_list (es.drop p)]
      else es := by
  have hu' : p ≤ 4294967295 := hu
  by_cases hsmall : p + 1 < 2147483648
  · have hto : to_int ((p + 1) % 4294967296) = ((p + 1 : Nat) : Int) := by
      have hmod : (p + 1) % 4294967296 = p + 1 := Nat.mod_eq_of_lt (by omega)
      simp only [to_int, hmod, hsmall, if_true]
    rw [hto]
    by_cases hk : p < es.length
    · rw [if_pos ⟨hk, hsmall⟩]
      have := g_strsplit_colon_list_limit es hes hfree hne (p + 1) (by omega) (by omega)
      simpa using this
    · rw [if_neg (fun h => hk h.1)]
      exact g_strsplit_colon_list_all es hes hfree hne _ (Or.inr (by omega))
  · rw [if_neg (fun h => hsmall h.2)]
    apply g_strsplit_colon_list_all es hes hfree hne _ (Or.inl _)
    by_cases hwrap : p + 1 = 4294967296
    · simp [to_int, hwrap]
    · have hmod : (p + 1) % 4294967296 = p + 1 := Nat.mod_eq_of_lt (by omega)
      simp only [to_int, hmod, hsmall, if_false]
      omega

/-! ## Lemmas on `atoi` -/

theorem atoi_digits_eq_foldl (e : List Char) (acc : Nat) (h : ∀ c ∈ e, isdigit c = true) :
    atoi_digits acc e = e.foldl (fun acc c => 10 * acc + (c.toNat - 48)) acc := by
  induction e generalizing acc with
  | nil => rfl
  | cons c cs ih =>
    have hc : isdigit c = true := h c (by simp)
    have hcs : ∀ x ∈ cs, isdigit x = true := fun x hx => h x (List.mem_cons_of_mem _ hx)
    simp only [atoi_digits, hc, if_true, List.foldl_cons]
    rw [ih _ hcs, Nat.mul_comm]

theorem isdigit_bounds (c : Char) (h : isdigit c = true) : 48 ≤ c.toNat ∧ c.toNat ≤ 57 := by
  simpa [isdigit] using h

theorem is_decimal_numeral_iff (e : List Char) :
    is_decimal_numeral e = true ↔ e ≠ [] ∧ ∀ c ∈ e, isdigit c = true := by
  cases e <;> simp [is_decimal_numeral]

theorem colon_not_mem_of_numeral (e : List Char) (h : is_decimal_numeral e = true) :
    ':' ∉ e := by
  intro hmem
  have := ((is_decimal_numeral_iff e).mp h).2 _ hmem
  exact absurd this (by decide)

theorem atoi_value_numeral (e : List Char) (h : is_decimal_numeral e = true) :
    atoi_value e = (decimal_value e : Int) := by
  obtain ⟨hne, hd⟩ := (is_decimal_numeral_iff e).mp h
  cases e with
  | nil => exact absurd rfl hne
  | cons c cs =>
    have hc := hd c (by simp)
    have hb := isdigit_bounds c hc
    have hsp : isspace c = false := by
      simp only [isspace, Bool.or_eq_false_iff, Bool.and_eq_false_iff, decide_eq_false_iff_not]
      omega
    have hminus : c ≠ '-' := by
      rintro rfl
      exact absurd hc (by decide)
    have hplus : c ≠ '+' := by
      rintro rfl
      exact absurd hc (by decide)
    have hdrop : (c :: cs).dropWhile isspace = c :: cs := by
      simp [List.dropWhile, hsp]
    unfold atoi_value
    rw [hdrop]
    split
    · rename_i heq
      exact absurd (List.cons.inj heq).1 hminus
    · rename_i heq
      exact absurd (List.cons.inj heq).1 hplus
    · rw [atoi_digits_eq_foldl _ _ hd]
      rfl

theorem atoi_numeral (e : List Char) (h : is_decimal_numeral e = true)
    (hfit : (decimal_value e : Int) ≤ INT_MAX) :
    (atoi e).map to_unsigned_int = .ok (decimal_value e) := by
  have hv := atoi_value_numeral e h
  have hfit' : (decimal_value e : Int) ≤ 2147483647 := hfit
  have hlow : INT_MIN ≤ (decimal_value e : Int) := by
    have : (0 : Int) ≤ (decimal_value e : Int) := Int.ofNat_nonneg _
    simp only [INT_MIN]
    omega
  simp only [atoi, hv, hlow, hfit, and_self, if_true, Except.map, to_unsigned_int]
  congr 1
  omega

/-! ## `find_first_page_column`: the selected entry and the fallback -/

theorem colon_list_ne_nil (es : List (List Char)) (h : ∃ e ∈ es, e ≠ []) :
    colon_list es ≠ [] := by
  obtain ⟨e, hmem, hne⟩ := h
  cases es with
  | nil => simp at hmem
  | cons a rest =>
    cases rest with
    | nil =>
      have : e = a := by simpa using hmem
      rw [colon_list_singleton]
      exact this ▸ hne
    | cons b rest' =>
      rw [colon_list_cons_cons]
      simp

theorem strv_get_of_get? (settings : List (List Char)) (index : Nat) (s : List Char)
    (h : settings.get? index = some s) : strv_get settings index = .ok s := by
  unfold strv_get
  rw [h]

/-- The function on a non-degenerate input, in terms of the field array. -/
theorem find_first_page_column_eq (list : List Char) (hne : list ≠ []) (p : Nat) (h1 : 1 ≤ p) :
    find_first_page_column (some list) p =
      (if p - 1 < (g_strsplit list ':' (to_int ((p + 1) % 4294967296))).length then
        match strv_get (g_strsplit list ':' (to_int ((p + 1) % 4294967296))) (p - 1) with
        | .error f => .error f
        | .ok s =>
          if s ≠ [] then (atoi s).map to_unsigned_int
          else find_first_page_column_last
            (g_strsplit list ':' (to_int ((p + 1) % 4294967296))) 1
      else find_first_page_column_last
        (g_strsplit list ':' (to_int ((p + 1) % 4294967296))) 1) := by
  have hp : p > 0 := h1
  simp only [find_first_page_column, hne, if_false, hp, not_true_eq_false, g_strv_length]

/-- The fallback branch on an array whose last field is known. -/
theorem find_first_page_column_last_eq (settings : List (List Char)) (last : List Char)
    (h : settings.getLast? = some last) (d : Nat) :
    find_first_page_column_last settings d =
      if last ≠ [] then (atoi last).map to_unsigned_int else .ok d := by
  have hget : settings.get? (settings.length - 1) = some last := by
    rw [List.get?_eq_getElem?, ← List.getLast?_eq_getElem?]
    exact h
  simp only [find_first_page_column_last, g_strv_length, strv_get_of_get? _ _ _ hget]

/-- C1. For a list string made of `k ≥ 1` colon-separated entries that are all
non-empty decimal numerals fitting in an `int`, and `pages_per_row` (an
`unsigned int`) with `1 ≤ pages_per_row ≤ k`, `find_first_page_column` returns
the numeric value of the entry number `pages_per_row` (counted from 1). -/
theorem find_first_page_column_selected_entry (entries : List (List Char))
    (pages_per_row : Nat)
    (hk : 1 ≤ entries.length)
    (hnum : ∀ e ∈ entries, is_decimal_numeral e = true ∧ (decimal_value e : Int) ≤ INT_MAX)
    (h1 : 1 ≤ pages_per_row) (h2 : pages_per_row ≤ entries.length)
    (hu : pages_per_row ≤ UINT_MAX) :
    ∃ e, entries.get? (pages_per_row - 1) = some e ∧
      find_first_page_column (some (colon_list entries)) pages_per_row =
        .ok (decimal_value e) := by
  have hes : entries ≠ [] := List.length_pos.mp hk
  have hfree : ∀ e ∈ entries, ':' ∉ e := fun e he => colon_not_mem_of_numeral e (hnum e he).1
  have hidx : pages_per_row - 1 < entries.length := by omega
  obtain ⟨e, he⟩ : ∃ e, entries.get? (pages_per_row - 1) = some e :=
    ⟨entries.get ⟨_, hidx⟩, List.get?_eq_get hidx⟩
  have hmem : e ∈ entries := List.get?_mem he
  have hene : e ≠ [] := ((is_decimal_numeral_iff e).mp (hnum e hmem).1).1
  have hne : colon_list entries ≠ [] := colon_list_ne_nil entries ⟨e, hmem, hene⟩
  refine ⟨e, he, ?_⟩
  rw [find_first_page_column_eq _ hne _ h1,
    g_strsplit_pages_per_row entries hes hfree hne pages_per_row h1 hu]
  have hget : (if pages_per_row < entries.length ∧ pages_per_row + 1 < 2147483648 then
      entries.take pages_per_row ++ [colon_list (entries.drop pages_per_row)]
      else entries).get? (pages_per_row - 1) = some e := by
    split
    · rw [List.get?_eq_getElem?, List.getElem?_append_left (by simp; omega),
        List.getElem?_take_of_lt (by omega), ← List.get?_eq_getElem?]
      exact he
    · exact he
  have hlen : pages_per_row - 1 < (if pages_per_row < entries.length ∧
      pages_per_row + 1 < 2147483648 then
      entries.take pages_per_row ++ [colon_list (entries.drop pages_per_row)]
      else entries).length := by
    split
    · simp; omega
    · exact hidx
  rw [if_pos hlen, strv_get_of_get? _ _ _ hget]
  simp only [hene, ne_eq, not_false_eq_true, if_true]
  exact atoi_numeral e (hnum e hmem).1 (hnum e hmem).2

/-- Witness of C1: the list `2:3:4` with `pages_per_row = 2` gives 3. -/
theorem find_first_page_column_selected_entry_witness :
    ∃ e, [['2'], ['3'], ['4']].get? (2 - 1) = some e ∧
      find_first_page_column (some (colon_list [['2'], ['3'], ['4']])) 2 =
        .ok (decimal_value e) :=
  find_first_page_column_selected_entry [['2'], ['3'], ['4']] 2 (by decide) (by decide)
    (by decide) (by decide) (by decide)

/-- C2, counterexample. The list `4294967296` is one entry, a non-empty decimal
numeral of value `2 ^ 32`; with `pages_per_row = 2`, beyond the list, the
function does not return that value: it is outside `unsigned int`, and `atoi`
is applied outside the range of `int`. -/
theorem find_first_page_column_last_entry_counterexample :
    (∀ e ∈ ["4294967296".toList], is_decimal_numeral e = true) ∧
    ["4294967296".toList].length < 2 ∧
    ["4294967296".toList].getLast? = some "4294967296".toList ∧
    decimal_value "4294967296".toList = 4294967296 ∧
    find_first_page_column (some (colon_list ["4294967296".toList])) 2 =
      .error Fault.atoi_range ∧
    find_first_page_column (some (colon_list ["4294967296".toList])) 2 ≠
      .ok (decimal_value "4294967296".toList) := by
  decide

/-- C2, amended. For a list string made of `k ≥ 1` colon-separated entries that
are all non-empty decimal numerals fitting in an `int`, and `pages_per_row` (an
`unsigned int`) greater than `k`, `find_first_page_column` returns the numeric
value of the last entry. -/
theorem find_first_page_column_last_entry (entries : List (List Char))
    (pages_per_row : Nat)
    (hk : 1 ≤ entries.length)
    (hnum : ∀ e ∈ entries, is_decimal_numeral e = true ∧ (decimal_value e : Int) ≤ INT_MAX)
    (h2 : entries.length < pages_per_row)
    (hu : pages_per_row ≤ UINT_MAX) :
    ∃ e, entries.getLast? = some e ∧
      find_first_page_column (some (colon_list entries)) pages_per_row =
        .ok (decimal_value e) := by
  have hes : entries ≠ [] := List.length_pos.mp hk
  have hfree : ∀ e ∈ entries, ':' ∉ e := fun e he => colon_not_mem_of_numeral e (hnum e he).1
  have hlast : entries.getLast? = some (entries.getLast hes) := List.getLast?_eq_getLast _ hes
  have hmem : entries.getLast hes ∈ entries := List.getLast_mem hes
  have hene : entries.getLast hes ≠ [] :=
    ((is_decimal_numeral_iff _).mp (hnum _ hmem).1).1
  have hne : colon_list entries ≠ [] := colon_list_ne_nil entries ⟨_, hmem, hene⟩
  have hcond : ¬ (pages_per_row < entries.length ∧ pages_per_row + 1 < 2147483648) :=
    fun h => absurd h.1 (by omega)
  have hidx : ¬ (pages_per_row - 1 < entries.length) := by omega
  refine ⟨_, hlast, ?_⟩
  rw [find_first_page_column_eq _ hne _ (by omega),
    g_strsplit_pages_per_row entries hes hfree hne pages_per_row (by omega) hu,
    if_neg hcond, if_neg hidx, find_first_page_column_last_eq _ _ hlast, if_pos hene]
  exact atoi_numeral _ (hnum _ hmem).1 (hnum _ hmem).2

/-- Witness of C2: the list `2:3:4` with `pages_per_row = 5` gives 4. -/
theorem find_first_page_column_last_entry_witness :
    ∃ e, [['2'], ['3'], ['4']].getLast? = some e ∧
      find_first_page_column (some (colon_list [['2'], ['3'], ['4']])) 5 =
        .ok (decimal_value e) :=
  find_first_page_column_last_entry [['2'], ['3'], ['4']] 5 (by decide) (by decide)
    (by decide) (by decide)

/-! ### The entries of an arbitrary list string -/

theorem colon_entries_ne_nil (list : List Char) : colon_entries list ≠ [] := by
  cases list with
  | nil => simp [colon_entries]
  | cons c cs =>
    unfold colon_entries
    split
    · simp
    · split <;> simp

theorem colon_list_cons_head (c : Char) (e : List Char) (es : List (List Char)) :
    colon_list ((c :: e) :: es) = c :: colon_list (e :: es) := by
  cases es <;> rfl

theorem colon_list_colon_entries (list : List Char) :
    colon_list (colon_entries list) = list := by
  induction list with
  | nil => rfl
  | cons c cs ih =>
    unfold colon_entries
    split
    · rename_i hc
      have hne := colon_entries_ne_nil cs
      cases hE : colon_entries cs with
      | nil => exact absurd hE hne
      | cons e es =>
        rw [colon_list_cons_cons, ← hE, ih, hc]
        rfl
    · split
      · rename_i hE
        exact absurd hE (colon_entries_ne_nil cs)
      · rename_i e es hE
        rw [colon_list_cons_head, ← hE, ih]

theorem colon_not_mem_colon_entries (list : List Char) :
    ∀ e ∈ colon_entries list, ':' ∉ e := by
  induction list with
  | nil => simp [colon_entries]
  | cons c cs ih =>
    unfold colon_entries
    split
    · intro e he
      rcases List.mem_cons.mp he with rfl | h
      · simp
      · exact ih e h
    · rename_i hc
      split
      · intro e he
        have : e = [c] := by simpa using he
        subst this
        simpa using fun h => hc h.symm
      · rename_i e0 es hE
        intro e he
        rcases List.mem_cons.mp he with rfl | h
        · have h0 : ':' ∉ e0 := ih e0 (by rw [hE]; simp)
          intro hmem
          rcases List.mem_cons.mp hmem with h' | h'
          · exact hc h'.symm
          · exact h0 h'
        · exact ih e (by rw [hE]; exact List.mem_cons_of_mem _ h)

/-- C3, counterexample. In the list `2::` the entry selected by
`pages_per_row = 5` is missing and the last non-empty entry is `2`, but the
function returns the default 1: the fallback reads the last entry, which is
empty. In the list `2::4:5`, which has more than `pages_per_row + 1` entries
for `pages_per_row = 2`, the selected entry is empty and the last entry, also
the last non-empty one, is `5`, but the function returns 4: the last field of
the limited split is the rest of the list, `4:5`. -/
theorem find_first_page_column_fallback_counterexample :
    ((colon_entries "2::".toList).get? (5 - 1) = none ∧
      last_non_empty_entry "2::".toList = some ['2'] ∧
      decimal_value ['2'] = 2 ∧
      find_first_page_column (some "2::".toList) 5 = .ok 1 ∧
      ¬ fallback_to_last_non_empty "2::".toList 5) ∧
    ((colon_entries "2::4:5".toList).get? (2 - 1) = some [] ∧
      (colon_entries "2::4:5".toList).length = 4 ∧
      (colon_entries "2::4:5".toList).getLast? = some ['5'] ∧
      last_non_empty_entry "2::4:5".toList = some ['5'] ∧
      decimal_value ['5'] = 5 ∧
      find_first_page_column (some "2::4:5".toList) 2 = .ok 4 ∧
      ¬ fallback_to_last_non_empty "2::4:5".toList 2) := by
  unfold fallback_to_last_non_empty
  decide

/-- C3, amended. For every list string and every `pages_per_row ≥ 1` (an
`unsigned int`) such that the list has at most `pages_per_row + 1` entries,
whenever the entry selected by `pages_per_row` is missing or empty, the result
is what `atoi` reads from the last entry of the list when that entry is not
empty, and 1 when it is empty. -/
theorem find_first_page_column_fallback (list : List Char) (pages_per_row : Nat)
    (h1 : 1 ≤ pages_per_row) (hu : pages_per_row ≤ UINT_MAX)
    (hk : (colon_entries list).length ≤ pages_per_row + 1)
    (hsel : (colon_entries list).get? (pages_per_row - 1) = none ∨
      (colon_entries list).get? (pages_per_row - 1) = some []) :
    ∃ last, (colon_entries list).getLast? = some last ∧
      find_first_page_column (some list) pages_per_row =
        if last ≠ [] then (atoi last).map to_unsigned_int else .ok 1 := by
  have hes := colon_entries_ne_nil list
  have hlast : (colon_entries list).getLast? = some ((colon_entries list).getLast hes) :=
    List.getLast?_eq_getLast _ hes
  refine ⟨_, hlast, ?_⟩
  by_cases hne : list = []
  · subst hne
    simp [find_first_page_column, colon_entries]
  · have hfree := colon_not_mem_colon_entries list
    have hne' : colon_list (colon_entries list) ≠ [] := by
      rw [colon_list_colon_entries]; exact hne
    have hsplit : g_strsplit list ':' (to_int ((pages_per_row + 1) % 4294967296)) =
        colon_entries list := by
      have h := g_strsplit_pages_per_row (colon_entries list) hes hfree hne'
        pages_per_row h1 hu
      rw [colon_list_colon_entries] at h
      rw [h]
      by_cases hcond : pages_per_row < (colon_entries list).length ∧
          pages_per_row + 1 < 2147483648
      · have hp : pages_per_row = (colon_entries list).length - 1 := by omega
        rw [if_pos hcond, hp]
        exact take_append_colon_list_drop_last _ hes
      · rw [if_neg hcond]
    rw [find_first_page_column_eq _ hne _ h1, hsplit]
    by_cases hidx : pages_per_row - 1 < (colon_entries list).length
    · have hget : (colon_entries list).get? (pages_per_row - 1) = some [] := by
        rcases hsel with h | h
        · rw [List.get?_eq_get hidx] at h
          exact absurd h (by simp)
        · exact h
      rw [if_pos hidx, strv_get_of_get? _ _ _ hget]
      simp only [ne_eq, not_true_eq_false, if_false]
      exact find_first_page_column_last_eq _ _ hlast 1
    · rw [if_neg hidx]
      exact find_first_page_column_last_eq _ _ hlast 1

/-- Witness of C3: in the list `1::3` the entry selected by
`pages_per_row = 2` is empty and the function returns 3, the value of the last
entry. -/
theorem find_first_page_column_fallback_witness :
    (colon_entries "1::3".toList).get? (2 - 1) = some [] ∧
    find_first_page_column (some "1::3".toList) 2 = .ok 3 ∧
    ∃ last, (colon_entries "1::3".toList).getLast? = some last ∧
      find_first_page_column (some "1::3".toList) 2 =
        if last ≠ [] then (atoi last).map to_unsigned_int else .ok 1 :=
  ⟨by decide, by decide,
    find_first_page_column_fallback "1::3".toList 2 (by decide) (by decide) (by decide)
      (by decide)⟩

/-- C4. `find_first_page_column` returns the default 1 when the list is `NULL`,
when the list is the empty string, whatever `pages_per_row`, and when
`pages_per_row` is 0, whatever the list. -/
theorem find_first_page_column_degenerate :
    (∀ pages_per_row, find_first_page_column none pages_per_row = .ok 1) ∧
    (∀ pages_per_row, find_first_page_column (some []) pages_per_row = .ok 1) ∧
    (∀ first_page_column_list, find_first_page_column first_page_column_list 0 = .ok 1) := by
  refine ⟨fun _ => rfl, fun _ => ?_, fun l => ?_⟩
  · simp [find_first_page_column]
  · cases l with
    | none => rfl
    | some list => simp [find_first_page_column]

/-! ## Rectangles -/

/-- C5. Rotating a rectangle by 90 degrees four times in succession, with
`(h, w)` as height and width on the first and third application and `(w, h)` on
the second and fourth, returns the original rectangle. -/
theorem rotate_rectangle_90_four_times (rectangle : zathura_rectangle_t) (h w : ℚ) :
    rotate_rectangle
      (rotate_rectangle
        (rotate_rectangle
          (rotate_rectangle rectangle 90 h w) 90 w h) 90 h w) 90 w h = rectangle := by
  ext <;> simp [rotate_rectangle]

/-! ## Zoom -/

theorem zoom_min_of_eq (session : girara_session_t) :
    (girara_setting_get_int session "zoom-min" 10 : ℚ) * 0.01 = zoom_min_of session := by
  unfold zoom_min_of
  norm_num
  ring

theorem zoom_max_of_eq (session : girara_session_t) :
    (girara_setting_get_int session "zoom-max" 1000 : ℚ) * 0.01 = zoom_max_of session := by
  unfold zoom_max_of
  norm_num
  ring

theorem zathura_correct_zoom_value_some (session : girara_session_t) (zoom : ℚ) :
    zathura_correct_zoom_value (some session) zoom =
      if zoom < zoom_min_of session then zoom_min_of session
      else if zoom > zoom_max_of session then zoom_max_of session
      else zoom := by
  simp only [zathura_correct_zoom_value, zoom_min_of_eq, zoom_max_of_eq]

/-- C6. With a session, and `min` and `max` the `zoom-min` and `zoom-max`
settings over 100, `zathura_correct_zoom_value` returns `min` when
`zoom < min`, otherwise `max` when `zoom > max`, otherwise `zoom`; without a
session (`NULL`) it returns `zoom`. -/
theorem zathura_correct_zoom_value_clamp :
    (∀ (session : girara_session_t) (zoom : ℚ),
      zathura_correct_zoom_value (some session) zoom =
        if zoom < zoom_min_of session then zoom_min_of session
        else if zoom > zoom_max_of session then zoom_max_of session
        else zoom) ∧
    (∀ zoom : ℚ, zathura_correct_zoom_value none zoom = zoom) :=
  ⟨zathura_correct_zoom_value_some, fun _ => rfl⟩

theorem girara_setting_get_int_zoom_min (a b d : Int) :
    girara_setting_get_int (session_with_zoom_limits a b) "zoom-min" d = a := by
  simp [girara_setting_get_int, session_with_zoom_limits]

theorem girara_setting_get_int_zoom_max (a b d : Int) :
    girara_setting_get_int (session_with_zoom_limits a b) "zoom-max" d = b := by
  simp [girara_setting_get_int, session_with_zoom_limits]

/-- C7, counterexample. With `zoom-min = 1000` and `zoom-max = 10` the bounds
are `min = 10` and `max = 1/10`; for the zoom 5 the function returns 10, which
is above `max`. -/
theorem zathura_correct_zoom_value_range_counterexample :
    zoom_min_of (session_with_zoom_limits 1000 10) = 10 ∧
    zoom_max_of (session_with_zoom_limits 1000 10) = 1 / 10 ∧
    zathura_correct_zoom_value (some (session_with_zoom_limits 1000 10)) 5 = 10 ∧
    ¬ (zathura_correct_zoom_value (some (session_with_zoom_limits 1000 10)) 5 ≤
        zoom_max_of (session_with_zoom_limits 1000 10)) := by
  have hmin : zoom_min_of (session_with_zoom_limits 1000 10) = 10 := by
    simp only [zoom_min_of, girara_setting_get_int_zoom_min]
    norm_num
  have hmax : zoom_max_of (session_with_zoom_limits 1000 10) = 1 / 10 := by
    simp only [zoom_max_of, girara_setting_get_int_zoom_max]
    norm_num
  have hval : zathura_correct_zoom_value (some (session_with_zoom_limits 1000 10)) 5 = 10 := by
    rw [zathura_correct_zoom_value_some, hmin, hmax]
    norm_num
  refine ⟨hmin, hmax, hval, ?_⟩
  rw [hval, hmax]
  norm_num

/-- C7, amended. With a session whose `zoom-min` setting does not exceed its
`zoom-max` setting (defaults 10 and 1000 when unset), for every requested zoom
the value returned lies between `zoom-min / 100` and `zoom-max / 100`. -/
theorem zathura_correct_zoom_value_range (session : girara_session_t) (zoom : ℚ)
    (hle : girara_setting_get_int session "zoom-min" 10 ≤
      girara_setting_get_int session "zoom-max" 1000) :
    zoom_min_of session ≤ zathura_correct_zoom_value (some session) zoom ∧
    zathura_correct_zoom_value (some session) zoom ≤ zoom_max_of session := by
  have hq : zoom_min_of session ≤ zoom_max_of session := by
    unfold zoom_min_of zoom_max_of
    have : (girara_setting_get_int session "zoom-min" 10 : ℚ) ≤
        (girara_setting_get_int session "zoom-max" 1000 : ℚ) := by exact_mod_cast hle
    linarith
  rw [zathura_correct_zoom_value_some]
  by_cases h1 : zoom < zoom_min_of session
  · rw [if_pos h1]
    exact ⟨le_refl _, hq⟩
  · rw [if_neg h1]
    by_cases h2 : zoom > zoom_max_of session
    · rw [if_pos h2]
      exact ⟨hq, le_refl _⟩
    · rw [if_neg h2]
      exact ⟨not_lt.mp h1, not_lt.mp h2⟩

/-- Witness of C7: a session without settings, hence with the defaults 10 and
1000, and the zoom 5. -/
theorem zathura_correct_zoom_value_range_witness :
    zoom_min_of session_without_settings ≤
      zathura_correct_zoom_value (some session_without_settings) 5 ∧
    zathura_correct_zoom_value (some session_without_settings) 5 ≤
      zoom_max_of session_without_settings :=
  zathura_correct_zoom_value_range session_without_settings 5 (by decide)

/-! ## Annotations -/

/-- C8. For every annotation type `t`, the annotation `zathura_annotation_new`
produces (the allocation having succeeded) reads back `t` from the type getter
and the zero value from every other getter: flags 0, name `NULL`, content
`NULL`, modification date 0, page index 0, user data `NULL`. -/
theorem zathura_annotation_new_getters (t unknown_type unknown_flag : Int) :
    ∃ annotation, zathura_annotation_new true t = .ok annotation ∧
      zathura_annotation_get_type unknown_type (some annotation) = t ∧
      zathura_annotation_get_flags unknown_flag (some annotation) = 0 ∧
      zathura_annotation_get_name (some annotation) = none ∧
      zathura_annotation_get_content (some annotation) = none ∧
      zathura_annotation_get_modified (some annotation) = 0 ∧
      zathura_annotation_get_page_index (some annotation) = 0 ∧
      zathura_annotation_get_data (some annotation) = none :=
  ⟨_, rfl, rfl, rfl, rfl, rfl, rfl, rfl, rfl⟩

theorem strdup_of_malloc (malloc : Nat → Ptr) (mem : Memory) (src block : Nat)
    (hmalloc : malloc (strlen (mem src) + 1) = some block) :
    __strdup malloc mem (some src) =
      (some block, Function.update mem block (mem src)) := by
  have htake : memcpy_string (mem src) (strlen (mem src) + 1) = mem src := by
    simp [memcpy_string, strlen]
  simp only [__strdup, Nat.one_mul, hmalloc, htake]

/-- C9, counterexample. The name and the content of a non-null annotation are
set to the non-null string `abc` while the allocator is out of memory: both
getters then return `NULL`, not a string equal to `abc`. -/
theorem zathura_annotation_set_string_counterexample :
    memory_abc 100 = ['a', 'b', 'c'] ∧
    zathura_annotation_get_name
      (zathura_annotation_set_name malloc_fails memory_abc
        (some annotation_zero) (some 100)).1 = none ∧
    zathura_annotation_get_content
      (zathura_annotation_set_content malloc_fails memory_abc
        (some annotation_zero) (some 100)).1 = none ∧
    ¬ reads_back
      (zathura_annotation_set_name malloc_fails memory_abc
        (some annotation_zero) (some 100)).2
      (zathura_annotation_get_name
        (zathura_annotation_set_name malloc_fails memory_abc
          (some annotation_zero) (some 100)).1)
      ['a', 'b', 'c'] := by
  refine ⟨rfl, rfl, rfl, ?_⟩
  rintro ⟨p, hp, -⟩
  have hnull : zathura_annotation_get_name
      (zathura_annotation_set_name malloc_fails memory_abc
        (some annotation_zero) (some 100)).1 = none := rfl
  rw [hnull] at hp
  exact Option.noConfusion hp

/-- C9, amended. For every non-null annotation and every non-null string `s`
(the buffer at `src`), when the allocation made by the setter succeeds, with a
block other than the buffer of the caller, `zathura_annotation_set_name`
followed by `zathura_annotation_get_name` returns a buffer holding `s`, and
likewise for the content; the buffer returned is the new block, so it still
holds `s` after the buffer of the caller is given any other contents. -/
theorem zathura_annotation_set_string_copies (malloc : Nat → Ptr) (mem : Memory)
    ( annotation : zathura_annotation_s) (src block : Nat)
    (hmalloc : malloc (strlen (mem src) + 1) = some block) (hfresh : block ≠ src) :
    (zathura_annotation_get_name
        (zathura_annotation_set_name malloc mem (some annotation) (some src)).1 = some block ∧
      reads_back (zathura_annotation_set_name malloc mem (some annotation) (some src)).2
        (zathura_annotation_get_name
          (zathura_annotation_set_name malloc mem (some annotation) (some src)).1)
        (mem src) ∧
      ∀ changed : List Char,
        reads_back
          (Function.update
            (zathura_annotation_set_name malloc mem (some annotation) (some src)).2
            src changed)
          (zathura_annotation_get_name
            (zathura_annotation_set_name malloc mem (some annotation) (some src)).1)
          (mem src)) ∧
    (zathura_annotation_get_content
        (zathura_annotation_set_content malloc mem (some annotation) (some src)).1 =
          some block ∧
      reads_back (zathura_annotation_set_content malloc mem (some annotation) (some src)).2
        (zathura_annotation_get_content
          (zathura_annotation_set_content malloc mem (some annotation) (some src)).1)
        (mem src) ∧
      ∀ changed : List Char,
        reads_back
          (Function.update
            (zathura_annotation_set_content malloc mem (some annotation) (some src)).2
            src changed)
          (zathura_annotation_get_content
            (zathura_annotation_set_content malloc mem (some annotation) (some src)).1)
          (mem src)) := by
  have hdup := strdup_of_malloc malloc mem src block hmalloc
  have hname : zathura_annotation_set_name malloc mem (some annotation) (some src) =
      (some { annotation with name := some block },
        Function.update mem block (mem src)) := by
    simp [zathura_annotation_set_name, hdup]
  have hcontent : zathura_annotation_set_content malloc mem (some annotation) (some src) =
      (some { annotation with content := some block },
        Function.update mem block (mem src)) := by
    simp [zathura_annotation_set_content, hdup]
  have hread : Function.update mem block (mem src) block = mem src :=
    Function.update_same _ _ _
  have hkeep : ∀ changed : List Char,
      Function.update (Function.update mem block (mem src)) src changed block = mem src := by
    intro changed
    rw [Function.update_noteq hfresh, hread]
  rw [hname, hcontent]
  exact ⟨⟨rfl, ⟨block, rfl, hread⟩, fun changed => ⟨block, rfl, hkeep changed⟩⟩,
    ⟨rfl, ⟨block, rfl, hread⟩, fun changed => ⟨block, rfl, hkeep changed⟩⟩⟩

/-- Witness of C9: the string `abc` in the buffer at address 100 and an
allocator that returns the block at address 200; the name read back is still
`abc` after the buffer at 100 is emptied. -/
theorem zathura_annotation_set_string_copies_witness :
    malloc_returns 200 (strlen (memory_abc 100) + 1) = some 200 ∧ 200 ≠ 100 ∧
    zathura_annotation_get_name
      (zathura_annotation_set_name (malloc_returns 200) memory_abc
        (some annotation_zero) (some 100)).1 = some 200 ∧
    reads_back
      (Function.update
        (zathura_annotation_set_name (malloc_returns 200) memory_abc
          (some annotation_zero) (some 100)).2
        100 [])
      (zathura_annotation_get_name
        (zathura_annotation_set_name (malloc_returns 200) memory_abc
          (some annotation_zero) (some 100)).1)
      (memory_abc 100) :=
  ⟨rfl, by decide,
    (zathura_annotation_set_string_copies (malloc_returns 200) memory_abc annotation_zero
      100 200 rfl (by decide)).1.1,
    (zathura_annotation_set_string_copies (malloc_returns 200) memory_abc annotation_zero
      100 200 rfl (by decide)).1.2.2 []⟩

/-- C10. For every non-null annotation, whatever its name and content,
`zathura_annotation_set_name (a, NULL)` makes the name getter return `NULL` and
`zathura_annotation_set_content (a, NULL)` makes the content getter return
`NULL`. -/
theorem zathura_annotation_set_string_null (malloc : Nat → Ptr) (mem : Memory)
    ( annotation : zathura_annotation_s) :
    zathura_annotation_get_name
      (zathura_annotation_set_name malloc mem (some annotation) none).1 = none ∧
    zathura_annotation_get_content
      (zathura_annotation_set_content malloc mem (some annotation) none).1 = none :=
  ⟨rfl, rfl⟩

/-- C11. On a `NULL` annotation every getter returns its sentinel: `NULL` for
the data, the name and the content, `ZATHURA_ANNOTATION_UNKNOWN` for the type,
`ZATHURA_ANNOTATION_FLAG_UNKNOWN` for the flags, `(time_t) -1` for the
modification date, 0 for the page index; every setter leaves the annotation
`NULL` and the memory as it was, and `zathura_annotation_free` frees nothing. -/
theorem zathura_annotation_null (unknown_type unknown_flag : Int) (malloc : Nat → Ptr)
    (mem : Memory) (data name content : Ptr) (flags modification_date : Int)
    (page_index : Nat) :
    zathura_annotation_get_data none = none ∧
    zathura_annotation_get_name none = none ∧
    zathura_annotation_get_content none = none ∧
    zathura_annotation_get_type unknown_type none = unknown_type ∧
    zathura_annotation_get_flags unknown_flag none = unknown_flag ∧
    zathura_annotation_get_modified none = -1 ∧
    zathura_annotation_get_page_index none = 0 ∧
    zathura_annotation_set_data none data = none ∧
    zathura_annotation_set_flags none flags = none ∧
    zathura_annotation_set_name malloc mem none name = (none, mem) ∧
    zathura_annotation_set_content malloc mem none content = (none, mem) ∧
    zathura_annotation_set_modified none modification_date = none ∧
    zathura_annotation_set_page_index none page_index = none ∧
    zathura_annotation_free none = [] :=
  ⟨rfl, rfl, rfl, rfl, rfl, rfl, rfl, rfl, rfl, rfl, rfl, rfl, rfl, rfl⟩

/-- C19. Each setter changes only its own field: after `set_data`, `set_flags`,
`set_name`, `set_content`, `set_modified` or `set_page_index` on a non-null
annotation, every getter other than the one of the field set returns what it
returned before the call, and none of them changes the type. -/
theorem zathura_annotation_setters_frame (unknown_type unknown_flag : Int)
    (malloc : Nat → Ptr) (mem : Memory) (a : zathura_annotation_s)
    (data name content : Ptr) (flags modification_date : Int) (page_index : Nat) :
    getters_agree_except annotation_field_t.data unknown_type unknown_flag (some a)
      (zathura_annotation_set_data (some a) data) ∧
    getters_agree_except annotation_field_t.flags unknown_type unknown_flag (some a)
      (zathura_annotation_set_flags (some a) flags) ∧
    getters_agree_except annotation_field_t.name unknown_type unknown_flag (some a)
      (zathura_annotation_set_name malloc mem (some a) name).1 ∧
    getters_agree_except annotation_field_t.content unknown_type unknown_flag (some a)
      (zathura_annotation_set_content malloc mem (some a) content).1 ∧
    getters_agree_except annotation_field_t.modification_date unknown_type unknown_flag
      (some a) (zathura_annotation_set_modified (some a) modification_date) ∧
    getters_agree_except annotation_field_t.page_index unknown_type unknown_flag (some a)
      (zathura_annotation_set_page_index (some a) page_index) := by
  refine ⟨?_, ?_, ?_, ?_, ?_, ?_⟩
  · exact ⟨rfl, fun _ => rfl, fun _ => rfl, fun _ => rfl, fun _ => rfl, fun _ => rfl,
      fun h => absurd rfl h⟩
  · exact ⟨rfl, fun h => absurd rfl h, fun _ => rfl, fun _ => rfl, fun _ => rfl,
      fun _ => rfl, fun _ => rfl⟩
  · cases name with
    | none =>
      exact ⟨rfl, fun _ => rfl, fun h => absurd rfl h, fun _ => rfl, fun _ => rfl,
        fun _ => rfl, fun _ => rfl⟩
    | some src =>
      exact ⟨rfl, fun _ => rfl, fun h => absurd rfl h, fun _ => rfl, fun _ => rfl,
        fun _ => rfl, fun _ => rfl⟩
  · cases content with
    | none =>
      exact ⟨rfl, fun _ => rfl, fun _ => rfl, fun h => absurd rfl h, fun _ => rfl,
        fun _ => rfl, fun _ => rfl⟩
    | some src =>
      exact ⟨rfl, fun _ => rfl, fun _ => rfl, fun h => absurd rfl h, fun _ => rfl,
        fun _ => rfl, fun _ => rfl⟩
  · exact ⟨rfl, fun _ => rfl, fun _ => rfl, fun _ => rfl, fun h => absurd rfl h,
      fun _ => rfl, fun _ => rfl⟩
  · exact ⟨rfl, fun _ => rfl, fun _ => rfl, fun _ => rfl, fun _ => rfl,
      fun h => absurd rfl h, fun _ => rfl⟩

/-! ## `file_valid_extension` -/

/-- C12. `file_valid_extension` returns false whenever the content-type
detection for the path yields no type, whatever the registry holds; and it
returns true exactly when the application object, the path and the plugin
manager are present, the detection yields a type and the registry has a plugin
for that type. -/
theorem file_valid_extension_iff {Context Manager Plugin : Type}
    (zathura_content_type_guess : Context → List Char → Option (List Char))
    (zathura_plugin_manager_get_plugin : Manager → List Char → Option Plugin) :
    (∀ (zathura : zathura_t Context Manager) (path : List Char),
      zathura_content_type_guess zathura.content_type_context path = none →
      file_valid_extension zathura_content_type_guess zathura_plugin_manager_get_plugin
        (some zathura) (some path) = false) ∧
    (∀ (zathura : Option (zathura_t Context Manager)) (path : Option (List Char)),
      file_valid_extension zathura_content_type_guess zathura_plugin_manager_get_plugin
        zathura path = true ↔
      ∃ z p manager content_type plugin,
        zathura = some z ∧ path = some p ∧ z.plugins_manager = some manager ∧
        zathura_content_type_guess z.content_type_context p = some content_type ∧
        zathura_plugin_manager_get_plugin manager content_type = some plugin) := by
  constructor
  · intro zathura path hguess
    unfold file_valid_extension
    cases hm : zathura.plugins_manager with
    | none => simp [hm]
    | some manager => simp [hm, hguess]
  · intro zathura path
    constructor
    · intro h
      unfold file_valid_extension at h
      cases zathura with
      | none => simp at h
      | some z =>
        cases path with
        | none => simp at h
        | some p =>
          cases hm : z.plugins_manager with
          | none => simp [hm] at h
          | some manager =>
            cases hg : zathura_content_type_guess z.content_type_context p with
            | none => simp [hm, hg] at h
            | some content_type =>
              cases hp : zathura_plugin_manager_get_plugin manager content_type with
              | none => simp [hm, hg, hp] at h
              | some plugin => exact ⟨z, p, manager, content_type, plugin, rfl, rfl, hm, hg, hp⟩
    · rintro ⟨z, p, manager, content_type, plugin, rfl, rfl, hm, hg, hp⟩
      simp [file_valid_extension, hm, hg, hp]

/-! ## Rectangles: the other claims -/

/-- C13. `recalc_rectangle` returns the rectangle it is given when the page is
`NULL` and when the document of the page is `NULL`; otherwise it returns
`rotate_rectangle (rectangle, rotation of the document, page height, page
width)` with each of the four coordinates multiplied by the scale of the
document. -/
theorem recalc_rectangle_eq (rectangle : zathura_rectangle_t) :
    recalc_rectangle none rectangle = rectangle ∧
    (∀ height width : ℚ,
      recalc_rectangle (some { document := none, height := height, width := width })
        rectangle = rectangle) ∧
    (∀ (document : zathura_document_t) (height width : ℚ),
      recalc_rectangle (some { document := some document, height := height, width := width })
        rectangle =
        { x1 := (rotate_rectangle rectangle document.rotation height width).x1 * document.scale
          x2 := (rotate_rectangle rectangle document.rotation height width).x2 * document.scale
          y1 := (rotate_rectangle rectangle document.rotation height width).y1 * document.scale
          y2 := (rotate_rectangle rectangle document.rotation height width).y2 *
            document.scale }) :=
  ⟨rfl, fun _ _ => rfl, fun _ _ _ => rfl⟩

/-- C14. For every degree other than 90, 180 and 270, and every height and
width, `rotate_rectangle` returns a rectangle equal to its input in all four
coordinates. -/
theorem rotate_rectangle_other_degree (rectangle : zathura_rectangle_t) (degree : Nat)
    (height width : ℚ) (h90 : degree ≠ 90) (h180 : degree ≠ 180) (h270 : degree ≠ 270) :
    rotate_rectangle rectangle degree height width = rectangle := by
  simp [rotate_rectangle, h90, h180, h270]

/-- Witness of C14: the degrees 0, 360 and 45. -/
theorem rotate_rectangle_other_degree_witness :
    rotate_rectangle ⟨1, 2, 3, 4⟩ 0 10 20 = ⟨1, 2, 3, 4⟩ ∧
    rotate_rectangle ⟨1, 2, 3, 4⟩ 360 10 20 = ⟨1, 2, 3, 4⟩ ∧
    rotate_rectangle ⟨1, 2, 3, 4⟩ 45 10 20 = ⟨1, 2, 3, 4⟩ :=
  ⟨rotate_rectangle_other_degree _ 0 10 20 (by decide) (by decide) (by decide),
    rotate_rectangle_other_degree _ 360 10 20 (by decide) (by decide) (by decide),
    rotate_rectangle_other_degree _ 45 10 20 (by decide) (by decide) (by decide)⟩

/-- C17. For `d` among 0, 90, 180 and 270, rotating a rectangle by `d` with
height `h` and width `w`, then by `(360 - d) mod 360` returns the original
rectangle, the second call taking the height `w` and the width `h` when `d` is
90 or 270 and the same height and width when `d` is 0 or 180. -/
theorem rotate_rectangle_inverse (rectangle : zathura_rectangle_t) (d : Nat) (h w : ℚ)
    (hd : d = 0 ∨ d = 90 ∨ d = 180 ∨ d = 270) :
    rotate_rectangle (rotate_rectangle rectangle d h w) ((360 - d) % 360)
      (if d = 90 ∨ d = 270 then w else h) (if d = 90 ∨ d = 270 then h else w) =
      rectangle := by
  rcases hd with rfl | rfl | rfl | rfl <;> ext <;> simp [rotate_rectangle]

/-- Witness of C17: 270 degrees undo 90 degrees. -/
theorem rotate_rectangle_inverse_witness :
    rotate_rectangle (rotate_rectangle ⟨1, 2, 3, 4⟩ 90 10 20) ((360 - 90) % 360)
      (if 90 = 90 ∨ 90 = 270 then 20 else 10) (if 90 = 90 ∨ 90 = 270 then 10 else 20) =
      ⟨1, 2, 3, 4⟩ :=
  rotate_rectangle_inverse ⟨1, 2, 3, 4⟩ 90 10 20 (by decide)

/-- C18. For a degree among 0, 90, 180 and 270, if the input satisfies
`0 ≤ x1 ≤ x2 ≤ width` and `0 ≤ y1 ≤ y2 ≤ height`, the output of
`rotate_rectangle` satisfies `x1 ≤ x2` and `y1 ≤ y2` and lies inside the rotated
page: within `[0, height] × [0, width]` for 90 and 270, within
`[0, width] × [0, height]` for 0 and 180. -/
theorem rotate_rectangle_within (rectangle : zathura_rectangle_t) (degree : Nat)
    (height width : ℚ)
    (hd : degree = 0 ∨ degree = 90 ∨ degree = 180 ∨ degree = 270)
    (hin : rectangle_within rectangle width height) :
    if degree = 90 ∨ degree = 270 then
      rectangle_within (rotate_rectangle rectangle degree height width) height width
    else
      rectangle_within (rotate_rectangle rectangle degree height width) width height := by
  obtain ⟨h1, h2, h3, h4, h5, h6⟩ := hin
  rcases hd with rfl | rfl | rfl | rfl <;>
    simp only [rotate_rectangle, rectangle_within] <;> norm_num <;>
    refine ⟨?_, ?_, ?_, ?_, ?_, ?_⟩ <;> linarith

/-- Witness of C18: the rectangle `(1, 2)`-`(3, 4)` on a page of width 20 and
height 10, rotated by 90 degrees. -/
theorem rotate_rectangle_within_witness :
    if 90 = 90 ∨ 90 = 270 then
      rectangle_within (rotate_rectangle ⟨1, 2, 3, 4⟩ 90 10 20) 10 20
    else
      rectangle_within (rotate_rectangle ⟨1, 2, 3, 4⟩ 90 10 20) 20 10 :=
  rotate_rectangle_within ⟨1, 2, 3, 4⟩ 90 10 20 (by decide)
    (by simp only [rectangle_within]; norm_num)

/-- Witness of C12: with a manager present, a detector that yields no type
gives false, and a detector that yields a type for which the registry has a
plugin gives true. -/
theorem file_valid_extension_iff_witness :
    file_valid_extension (fun (_ : Unit) (_ : List Char) => (none : Option (List Char)))
      (fun (_ : Unit) (_ : List Char) => some 0)
      (some { content_type_context := (), plugins_manager := some (), ui_session := none })
      (some "a.pdf".toList) = false ∧
    file_valid_extension (fun (_ : Unit) (_ : List Char) => some "application/pdf".toList)
      (fun (_ : Unit) (_ : List Char) => some 0)
      (some { content_type_context := (), plugins_manager := some (), ui_session := none })
      (some "a.pdf".toList) = true :=
  ⟨(file_valid_extension_iff (fun (_ : Unit) (_ : List Char) => (none : Option (List Char)))
      (fun (_ : Unit) (_ : List Char) => some 0)).1
      { content_type_context := (), plugins_manager := some (), ui_session := none }
      "a.pdf".toList rfl,
    ((file_valid_extension_iff (fun (_ : Unit) (_ : List Char) => some "application/pdf".toList)
      (fun (_ : Unit) (_ : List Char) => some 0)).2 _ _).mpr
      ⟨_, _, (), "application/pdf".toList, 0, rfl, rfl, rfl, rfl, rfl⟩⟩

/-! ## `get_selection` -/

theorem girara_setting_get_string_selection (value dest : Option (List Char)) :
    girara_setting_get_string (some (session_with_selection value)) "selection-clipboard"
      dest = value := by
  simp [girara_setting_get_string, session_with_selection]

/-- C16, counterexample. The application object is present and the
`selection-clipboard` setting equals `primary`, but `g_try_malloc` returns
`NULL`: the result is `NULL`, not the PRIMARY selection. -/
theorem get_selection_counterexample :
    girara_setting_get_string
      (zathura_with_session (some (session_with_selection (some "primary".toList)))).ui_session
      "selection-clipboard" none = some "primary".toList ∧
    get_selection false
      (some (zathura_with_session (some (session_with_selection (some "primary".toList))))) =
      none ∧
    get_selection false
      (some (zathura_with_session (some (session_with_selection (some "primary".toList))))) ≠
      some GdkAtom.GDK_SELECTION_PRIMARY := by
  decide

/-- C16, amended. With a present application object, when the allocation of
the result succeeds, `get_selection` returns the PRIMARY selection when the
`selection-clipboard` setting equals `primary`, the CLIPBOARD selection when it
equals `clipboard`, and `NULL` for every other value and when the setting has
no value; when the allocation fails it returns `NULL`. -/
theorem get_selection_eq {Context Manager : Type} (zathura : zathura_t Context Manager) :
    get_selection true (some zathura) =
      selection_of_setting
        (girara_setting_get_string zathura.ui_session "selection-clipboard" none) ∧
    get_selection false (some zathura) = none := by
  constructor
  · unfold get_selection selection_of_setting
    cases hv : girara_setting_get_string zathura.ui_session "selection-clipboard" none with
    | none => simp [hv]
    | some value => simp [hv]
  · unfold get_selection
    cases hv : girara_setting_get_string zathura.ui_session "selection-clipboard" none with
    | none => simp [hv]
    | some value => simp [hv]

/-! ## `find_first_page_column`: the array accesses -/

theorem g_strsplit_length_pos (string : List Char) (h : string ≠ []) (delimiter : Char)
    (max_tokens : Int) : 1 ≤ (g_strsplit string delimiter max_tokens).length := by
  simp [g_strsplit, h]

theorem strv_get_of_lt (settings : List (List Char)) (index : Nat) (h : index < settings.length) :
    ∃ s, strv_get settings index = .ok s :=
  ⟨settings.get ⟨index, h⟩, strv_get_of_get? _ _ _ (List.get?_eq_get h)⟩

/-- C20. For every non-empty list string and every `pages_per_row ≥ 1`, the
split on `:` with limit `pages_per_row + 1` has at least one field; the read at
index `pages_per_row - 1`, made only when that index is below the number of
fields, and the read at the last index are inside the array, and the function
does not read outside it. -/
theorem find_first_page_column_in_bounds (list : List Char) (pages_per_row : Nat)
    (hne : list ≠ []) (h1 : 1 ≤ pages_per_row) :
    1 ≤ g_strv_length (g_strsplit list ':' (to_int ((pages_per_row + 1) % 4294967296))) ∧
    (pages_per_row - 1 <
        g_strv_length (g_strsplit list ':' (to_int ((pages_per_row + 1) % 4294967296))) →
      ∃ s, strv_get (g_strsplit list ':' (to_int ((pages_per_row + 1) % 4294967296)))
        (pages_per_row - 1) = .ok s) ∧
    (∃ last, strv_get (g_strsplit list ':' (to_int ((pages_per_row + 1) % 4294967296)))
      (g_strv_length (g_strsplit list ':' (to_int ((pages_per_row + 1) % 4294967296))) - 1) =
        .ok last) ∧
    find_first_page_column (some list) pages_per_row ≠ .error Fault.out_of_bounds := by
  have hpos := g_strsplit_length_pos list hne ':' (to_int ((pages_per_row + 1) % 4294967296))
  have hlast := strv_get_of_lt _ _
    (show (g_strsplit list ':' (to_int ((pages_per_row + 1) % 4294967296))).length - 1 <
      (g_strsplit list ':' (to_int ((pages_per_row + 1) % 4294967296))).length by omega)
  have hatoi : ∀ s : List Char, (atoi s).map to_unsigned_int ≠ .error Fault.out_of_bounds := by
    intro s
    simp only [atoi]
    by_cases hrange : INT_MIN ≤ atoi_value s ∧ atoi_value s ≤ INT_MAX
    · rw [if_pos hrange]
      exact fun h => Except.noConfusion h
    · rw [if_neg hrange]
      exact fun h => absurd (Except.error.inj h) (by decide)
  have hfall : find_first_page_column_last
      (g_strsplit list ':' (to_int ((pages_per_row + 1) % 4294967296))) 1 ≠
      .error Fault.out_of_bounds := by
    obtain ⟨last, hl⟩ := hlast
    simp only [find_first_page_column_last, g_strv_length, hl]
    by_cases hempty : last = []
    · simp [hempty]
    · simpa [hempty] using hatoi last
  refine ⟨hpos, fun hidx => strv_get_of_lt _ _ hidx, hlast, ?_⟩
  rw [find_first_page_column_eq list hne pages_per_row h1]
  split
  · rename_i hidx
    obtain ⟨s, hs⟩ := strv_get_of_lt _ _ hidx
    rw [hs]
    by_cases hempty : s = []
    · simpa [hempty] using hfall
    · simpa [hempty] using hatoi s
  · exact hfall

/-- Witness of C20: the list `2::4:5` with `pages_per_row = 2`. -/
theorem find_first_page_column_in_bounds_witness :
    1 ≤ g_strv_length (g_strsplit "2::4:5".toList ':' (to_int ((2 + 1) % 4294967296))) ∧
    find_first_page_column (some "2::4:5".toList) 2 ≠ .error Fault.out_of_bounds :=
  ⟨(find_first_page_column_in_bounds "2::4:5".toList 2 (by decide) (by decide)).1,
    (find_first_page_column_in_bounds "2::4:5".toList 2 (by decide) (by decide)).2.2.2⟩

/-! ## `document_index_build` -/

theorem set_columns_append (column0 column1 : Option (List Char))
    (column2 : Option zathura_index_element_t) (rows : List GtkTreeRow) (row : GtkTreeRow) :
    set_columns column0 column1 column2 rows.length (rows ++ [row]) =
      rows ++ [{ row with column0 := column0, column1 := column1, column2 := column2 }] := by
  induction rows with
  | nil => rfl
  | cons r rs ih => simp [set_columns, ih]

theorem store_with_rows_nil (g : Int) (e : Option (List Char) → Option (List Char))
    (model : GtkTreeStore) : store_with_rows g e model [] = model := by
  simp [store_with_rows]

theorem store_with_rows_append (g : Int) (e : Option (List Char) → Option (List Char))
    (model : GtkTreeStore) (xs ys : List (Option Nat × zathura_index_element_t)) :
    store_with_rows g e (store_with_rows g e model xs) ys =
      store_with_rows g e model (xs ++ ys) := by
  simp [store_with_rows]

theorem store_with_rows_length (g : Int) (e : Option (List Char) → Option (List Char))
    (model : GtkTreeStore) (xs : List (Option Nat × zathura_index_element_t)) :
    (store_with_rows g e model xs).rows.length = model.rows.length + xs.length := by
  simp [store_with_rows]

/-- One turn of the loop, up to the recursive call: the row of the node is
added under `parent` and a cleanup is registered for its index element. -/
theorem document_index_build_row (g : Int) (e : Option (List Char) → Option (List Char))
    (model : GtkTreeStore) (parent : Option Nat) (data : zathura_index_element_t) :
    g_object_weak_ref
      (gtk_tree_store_set (gtk_tree_store_append model parent).1
        (gtk_tree_store_append model parent).2 (e data.title)
        (if data.link.type = g then
          some (g_strdup_printf_page ((data.link.target.page_number + 1) % 4294967296))
        else data.link.target.value) (some data)) data =
      store_with_rows g e model [(parent, data)] := by
  simp [g_object_weak_ref, gtk_tree_store_set, gtk_tree_store_append, set_columns_append,
    store_with_rows, built_row]

mutual
theorem document_index_build_spec (g : Int) (e : Option (List Char) → Option (List Char)) :
    ∀ (tree : girara_tree_node_t) (model : GtkTreeStore) (parent : Option Nat),
      document_index_build g e model parent tree =
        store_with_rows g e model
          (preorder_children parent model.rows.length (girara_node_get_children tree))
  | girara_tree_node_t.node _ list, model, parent => by
    rw [document_index_build, girara_node_get_children]
    exact document_index_build_foreach_spec g e list model parent
theorem document_index_build_foreach_spec (g : Int)
    (e : Option (List Char) → Option (List Char)) :
    ∀ (list : List girara_tree_node_t) (model : GtkTreeStore) (parent : Option Nat),
      document_index_build_foreach g e model parent list =
        store_with_rows g e model (preorder_children parent model.rows.length list)
  | [], model, parent => by
    rw [document_index_build_foreach, preorder_children, store_with_rows_nil]
  | girara_tree_node_t.node data children :: rest, model, parent => by
    have hnode := document_index_build_spec g e (girara_tree_node_t.node data children)
      (store_with_rows g e model [(parent, data)]) (some model.rows.length)
    have hrest := document_index_build_foreach_spec g e rest
    rw [document_index_build_foreach]
    simp only [girara_node_get_data, document_index_build_row]
    have hstep : (if girara_node_get_num_children (girara_tree_node_t.node data children) > 0
        then document_index_build g e (store_with_rows g e model [(parent, data)])
          (some (gtk_tree_store_append model parent).2) (girara_tree_node_t.node data children)
        else store_with_rows g e model [(parent, data)]) =
        store_with_rows g e model
          (preorder_node parent model.rows.length (girara_tree_node_t.node data children)) := by
      have hiter : (gtk_tree_store_append model parent).2 = model.rows.length := rfl
      rw [hiter, preorder_node]
      by_cases hc : girara_node_get_num_children (girara_tree_node_t.node data children) > 0
      · rw [if_pos hc, hnode, store_with_rows_append, store_with_rows_length]
        simp [girara_node_get_children]
      · rw [if_neg hc]
        have hnil : children = [] := by
          simpa [girara_node_get_num_children, girara_node_get_children] using hc
        subst hnil
        simp [preorder_children]
    rw [hstep, hrest, store_with_rows_append, store_with_rows_length, preorder_children]
end

mutual
theorem preorder_node_length (parent : Option Nat) (first : Nat) :
    ∀ node : girara_tree_node_t, (preorder_node parent first node).length = node_count node
  | girara_tree_node_t.node _ children => by
    rw [preorder_node, node_count, List.length_cons,
      preorder_children_length (some first) (first + 1) children]
    omega
theorem preorder_children_length (parent : Option Nat) (first : Nat) :
    ∀ list : List girara_tree_node_t,
      (preorder_children parent first list).length = node_count_children list
  | [] => by rw [preorder_children, node_count_children, List.length_nil]
  | node :: rest => by
    rw [preorder_children, node_count_children, List.length_append,
      preorder_node_length parent first node,
      preorder_children_length parent (first + node_count node) rest]
end

theorem built_row_eq_expected_row (g : Int) (e : Option (List Char) → Option (List Char))
    (entry : Option Nat × zathura_index_element_t)
    (hfit : entry.2.link.type = g → (entry.2.link.target.page_number : Int) + 1 ≤ INT_MAX) :
    built_row g e entry = expected_row g e entry := by
  unfold built_row expected_row expected_description g_strdup_printf_page
  by_cases ht : entry.2.link.type = g
  · have hle : (entry.2.link.target.page_number : Int) + 1 ≤ 2147483647 := hfit ht
    have hmod : (entry.2.link.target.page_number + 1) % 4294967296 =
        entry.2.link.target.page_number + 1 := Nat.mod_eq_of_lt (by omega)
    have hint : to_int (entry.2.link.target.page_number + 1) =
        (entry.2.link.target.page_number : Int) + 1 := by
      have hlt : (entry.2.link.target.page_number + 1) % 4294967296 < 2147483648 := by omega
      simp only [to_int, hlt, if_true, hmod]
      omega
    simp only [ht, if_true, hmod, hint]
  · simp only [ht, if_false]

/-- C15, counterexample. The tree has one node below its root, a
go-to-destination link to the page number `2147483647`: the description of its
row is `Page -2147483648`, not `Page 2147483648`, because the sum
`page_number + 1` is a 32-bit value printed with `%d`. -/
theorem document_index_build_rows_counterexample :
    (preorder_children none 0 (girara_node_get_children overflow_index_tree)).map
      (fun entry => (entry.2.link.type, entry.2.link.target.page_number)) =
      [(2, 2147483647)] ∧
    (document_index_build 2 id { rows := [], weak_refs := [] } none
      overflow_index_tree).rows.map (fun row => row.column1) =
      [some "Page -2147483648".toList] ∧
    (document_index_build 2 id { rows := [], weak_refs := [] } none
      overflow_index_tree).rows.map (fun row => row.column1) ≠
      [some ("Page ".toList ++ (toString ((2147483647 : Int) + 1)).toList)] := by
  decide

/-- C15, amended. For every index tree in which the target page number plus
one of every go-to-destination link fits in an `int`, for every store and every
parent row, `document_index_build` appends to the store one row for each node
below the root, in depth-first pre-order, each row under the row of its tree
parent (the children of the root under `parent`); the row holds the escaped
title, the description, which is `Page n` with `n` the target page number plus
one for a go-to-destination link and the raw target value otherwise, and the
index element; one cleanup is registered for the index element of each row, in
the same order; the number of rows added is the number of nodes below the
root. -/
theorem document_index_build_rows (ZATHURA_LINK_GOTO_DEST : Int)
    (g_markup_escape_text : Option (List Char) → Option (List Char))
    (model : GtkTreeStore) (parent : Option Nat) (tree : girara_tree_node_t)
    (hfit : page_numbers_fit ZATHURA_LINK_GOTO_DEST
      (preorder_children parent model.rows.length (girara_node_get_children tree))) :
    (document_index_build ZATHURA_LINK_GOTO_DEST g_markup_escape_text model parent tree).rows =
      model.rows ++
        (preorder_children parent model.rows.length (girara_node_get_children tree)).map
          (fun entry =>
            { parent := entry.1
              column0 := g_markup_escape_text entry.2.title
              column1 :=
                if entry.2.link.type = ZATHURA_LINK_GOTO_DEST then
                  some ("Page ".toList ++
                    (toString ((entry.2.link.target.page_number : Int) + 1)).toList)
                else entry.2.link.target.value
              column2 := some entry.2 }) ∧
    (document_index_build ZATHURA_LINK_GOTO_DEST g_markup_escape_text model parent
        tree).weak_refs =
      model.weak_refs ++
        (preorder_children parent model.rows.length (girara_node_get_children tree)).map
          Prod.snd ∧
    (preorder_children parent model.rows.length (girara_node_get_children tree)).length =
      node_count tree - 1 := by
  rw [document_index_build_spec]
  refine ⟨?_, rfl, ?_⟩
  · have hmap : (preorder_children parent model.rows.length
        (girara_node_get_children tree)).map
          (built_row ZATHURA_LINK_GOTO_DEST g_markup_escape_text) =
        (preorder_children parent model.rows.length
          (girara_node_get_children tree)).map
          (expected_row ZATHURA_LINK_GOTO_DEST g_markup_escape_text) :=
      List.map_congr_left (fun entry hmem =>
        built_row_eq_expected_row _ _ entry (hfit entry hmem))
    simp only [store_with_rows, hmap]
    rfl
  · rw [preorder_children_length]
    cases tree with
    | node data children => simp [node_count, girara_node_get_children]

/-- Witness of C15: a tree with five nodes below its root, on three levels,
built into an empty store. -/
theorem document_index_build_rows_witness :
    (document_index_build 2 id { rows := [], weak_refs := [] } none sample_index_tree).rows =
      [{ parent := none, column0 := some ['a'], column1 := some "Page 5".toList,
         column2 := some (index_element_of ['a'] 2 4) },
       { parent := some 0, column0 := some ['b'], column1 := some ['u', 'r', 'i'],
         column2 := some (index_element_of ['b'] 3 0) },
       { parent := some 0, column0 := some ['c'], column1 := some "Page 8".toList,
         column2 := some (index_element_of ['c'] 2 7) },
       { parent := some 2, column0 := some ['d'], column1 := some "Page 2".toList,
         column2 := some (index_element_of ['d'] 2 1) },
       { parent := none, column0 := some ['e'], column1 := some "Page 10".toList,
         column2 := some (index_element_of ['e'] 2 9) }] ∧
    (preorder_children none 0 (girara_node_get_children sample_index_tree)).length =
      node_count sample_index_tree - 1 :=
  ⟨(document_index_build_rows 2 id { rows := [], weak_refs := [] } none sample_index_tree
      (by unfold page_numbers_fit; decide)).1.trans (by decide),
    (document_index_build_rows 2 id { rows := [], weak_refs := [] } none sample_index_tree
      (by unfold page_numbers_fit; decide)).2.2⟩

end Zathura
